import Mathlib

/-!
Verification of the line-tcm-bot webhook service.

This file shallowly embeds the Python modules of the repository
(api/index.py, api/syllabus.py, api/learning.py, api/weekly_report.py)
as executable Lean definitions and proves the specified properties of the
webhook handlers, the AI-request orchestrator, the keyword classifiers,
the session-store wrappers, the question log and the weekly-report
aggregation.

Modelling conventions:
* Python strings are Lean String; slicing, strip and lower are modelled on
  the underlying character lists so that all definitions evaluate inside
  the kernel.
* The Upstash Redis store is a record of assoc lists (plain keys, hashes,
  the question-log list, the review-ask timestamps); an absent client is
  modelled by Option.  Exceptions raised by a lookup are modelled, where a
  claim depends on them, by an explicit result type RResult.
* Calls to external services (OpenAI chat completions, assistant runs,
  Whisper, TTS, Cloudinary, LINE) are modelled as effect actions recorded
  in a trace, with the data they return supplied by an environment record
  BotEnv acting as an oracle.  Wall-clock time inside the run-polling loop
  is idealised: each time.sleep(1) contributes one second and every other
  operation is instantaneous.
-/

/-- Python list-slice prefix s[:n] on a string. -/
def strTake (s : String) (n : Nat) : String := ⟨s.data.take n⟩

/-- Characters of a string with surrounding whitespace removed (Python str.strip()). -/
def trimChars (l : List Char) : List Char :=
  ((l.dropWhile Char.isWhitespace).reverse.dropWhile Char.isWhitespace).reverse

/-- Python str.strip().  (String.trim is avoided because its byte-position
implementation does not reduce in the kernel.) -/
def strTrim (s : String) : String := ⟨trimChars s.data⟩

/-- Python str.rstrip(). -/
def strTrimR (s : String) : String := ⟨(s.data.reverse.dropWhile Char.isWhitespace).reverse⟩

/-- Python str.lower(). -/
def lowerStr (s : String) : String := ⟨s.data.map Char.toLower⟩

/-- Python substring test: needle in hay. -/
def strContains (hay needle : String) : Bool := decide (needle.data <:+: hay.data)

/-! ## api/syllabus.py: keyword classifiers -/

/-- The parts of config/syllabus.json that the keyword classifiers read. -/
structure SylConfig where
  off_topic_keywords : List String
  tcm_related_keywords : List String
deriving DecidableEq

/-- The strong TCM keyword list hard-coded in is_off_topic
(api/syllabus.py line 438). -/
def strongTcmKeywords : List String :=
  ["中醫", "TCM", "經絡", "穴位", "陰陽", "五行", "針灸", "診斷", "臟腑"]

/-- The keyword test used by both loops of is_off_topic:
kw.lower() in text_lower or kw in text (api/syllabus.py lines 437, 447). -/
def kwMatch (kw text text_lower : String) : Bool :=
  strContains text_lower (lowerStr kw) || strContains text kw

/-- Whether the trimmed text contains a strong TCM keyword
(api/syllabus.py lines 438-439). -/
def strongTcmHit (text : String) : Bool :=
  strongTcmKeywords.any (fun s => strContains text s)

/-- The weather special-case applied to tcm_related_keywords
(api/syllabus.py lines 444-445). -/
def weatherAdjust (text : String) (kws : List String) : List String :=
  if strContains text "天氣" || strContains text "天气" then
    kws.filter (fun k => k ≠ "氣" ∧ k ≠ "qi")
  else kws

/-- The final tcm_keywords loop of is_off_topic (api/syllabus.py lines
446-450): a match returns False, and falling through also returns False. -/
def tcmKeywordLoop (text text_lower : String) : List String → Bool
  | [] => false
  | kw :: rest =>
    if kwMatch kw text text_lower then false else tcmKeywordLoop text text_lower rest

/-- The off_keywords loop of is_off_topic (api/syllabus.py lines 436-441).
On the first matching off-topic keyword: if a strong TCM keyword is present
the Python loop "break"s into the tcm_keywords loop, otherwise it returns
True. -/
def offKeywordLoop (cfg : SylConfig) (text text_lower : String) : List String → Bool
  | [] =>
    tcmKeywordLoop text text_lower
      (weatherAdjust text (cfg.tcm_related_keywords.filter (fun k => k ≠ "")))
  | kw :: rest =>
    if kwMatch kw text text_lower then
      if strongTcmHit text then
        tcmKeywordLoop text text_lower
          (weatherAdjust text (cfg.tcm_related_keywords.filter (fun k => k ≠ "")))
      else true
    else offKeywordLoop cfg text text_lower rest

/-- is_off_topic (api/syllabus.py lines 424-450). -/
def is_off_topic (cfg : SylConfig) (user_text : String) : Bool :=
  if strTrim user_text = "" then false
  else
    let text := strTrim user_text
    let text_lower := lowerStr text
    offKeywordLoop cfg text text_lower (cfg.off_topic_keywords.filter (fun k => k ≠ ""))

/-- OFF_TOPIC_REPLY (api/syllabus.py lines 453-456). -/
def OFF_TOPIC_REPLY : String :=
  "抱歉，我目前專注於協助您的中醫課程學習。如果您有關於穴位（如：手陽明經、合谷）、經絡、陰陽五行或課程進度的問題，歡迎隨時問我！"

/-- The keyword list of is_course_inquiry_intent (api/syllabus.py lines 486-490). -/
def courseInquiryKeywords : List String :=
  ["這堂課", "在學什麼", "學什麼", "進度", "老師", "教授", "課表", "schedule",
   "course", "課程介紹", "introduction", "上課", "教室", "syllabus", "課務", "本週重點",
   "評分", "成績", "作業", "繳交", "grading", "assignment"]

/-- is_course_inquiry_intent (api/syllabus.py lines 481-491). -/
def is_course_inquiry_intent (text : String) : Bool :=
  if strTrim text = "" then false
  else courseInquiryKeywords.any (fun kw => strContains (lowerStr (strTrim text)) kw)

/-! ### Lemmas about the off-topic classifier -/

theorem strContains_iff (hay needle : String) :
    strContains hay needle = true ↔ needle.data <:+: hay.data := by
  simp [strContains]

theorem tcmKeywordLoop_eq_false (text text_lower : String) :
    ∀ l : List String, tcmKeywordLoop text text_lower l = false := by
  intro l
  induction l with
  | nil => rfl
  | cons kw rest ih =>
    simp only [tcmKeywordLoop]
    split
    · rfl
    · exact ih

theorem offKeywordLoop_true_iff (cfg : SylConfig) (text text_lower : String)
    (l : List String) :
    offKeywordLoop cfg text text_lower l = true ↔
      (∃ kw ∈ l, kwMatch kw text text_lower = true) ∧ strongTcmHit text = false := by
  induction l with
  | nil =>
    simp [offKeywordLoop, tcmKeywordLoop_eq_false]
  | cons kw rest ih =>
    simp only [offKeywordLoop]
    by_cases h : kwMatch kw text text_lower = true
    · rw [if_pos h]
      by_cases hs : strongTcmHit text = true
      · rw [if_pos hs, tcmKeywordLoop_eq_false]
        constructor
        · intro hfalse; exact absurd hfalse (by simp)
        · rintro ⟨-, hferr⟩
          rw [hs] at hferr; exact absurd hferr (by simp)
      · rw [if_neg hs]
        have hsf : strongTcmHit text = false := by
          cases hx : strongTcmHit text
          · rfl
          · exact absurd hx hs
        constructor
        · intro _; exact ⟨⟨kw, List.mem_cons_self kw rest, h⟩, hsf⟩
        · intro _; rfl
    · have hf : kwMatch kw text text_lower = false := by
        cases hx : kwMatch kw text text_lower
        · rfl
        · exact absurd hx h
      rw [if_neg h, ih]
      constructor
      · rintro ⟨⟨kw', hmem, hm⟩, hs⟩
        exact ⟨⟨kw', List.mem_cons_of_mem kw hmem, hm⟩, hs⟩
      · rintro ⟨⟨kw', hmem, hm⟩, hs⟩
        rcases List.mem_cons.mp hmem with hkw | hkw
        · subst hkw; rw [hf] at hm; exact absurd hm (by simp)
        · exact ⟨⟨kw', hkw, hm⟩, hs⟩

theorem lowerStr_eq_empty_iff (s : String) : lowerStr s = "" ↔ s = "" := by
  constructor
  · intro h
    have hd : (lowerStr s).data = ([] : List Char) := by rw [h]
    have : s.data.map Char.toLower = ([] : List Char) := hd
    have hnil : s.data = [] := List.map_eq_nil_iff.mp this
    exact String.ext hnil
  · intro h; rw [h]; rfl

/-- C5: is_off_topic returns False on blank input, and returns True exactly
when the trimmed text matches at least one configured (non-empty) off-topic
keyword — case-insensitively, as the code matches kw.lower() against the
lowered text or kw against the raw text — while containing none of the nine
strong TCM keywords; in every other case it returns False. -/
theorem c5_is_off_topic_characterization (cfg : SylConfig) (user_text : String) :
    (strTrim user_text = "" → is_off_topic cfg user_text = false) ∧
    (is_off_topic cfg user_text = true ↔
      ((∃ kw ∈ cfg.off_topic_keywords, kw ≠ "" ∧
          ((lowerStr kw).data <:+: (lowerStr (strTrim user_text)).data ∨
            kw.data <:+: (strTrim user_text).data)) ∧
        ∀ s ∈ strongTcmKeywords, ¬ s.data <:+: (strTrim user_text).data)) := by
  constructor
  · intro h
    simp [is_off_topic, h]
  · by_cases hempty : strTrim user_text = ""
    · rw [hempty]
      constructor
      · intro h
        have : is_off_topic cfg user_text = false := by simp [is_off_topic, hempty]
        rw [this] at h; exact absurd h (by simp)
      · rintro ⟨⟨kw, _, hne, hmatch⟩, -⟩
        exfalso
        rcases hmatch with hlow | hraw
        · have hl : (lowerStr kw).data.Sublist ([] : List Char) := hlow.sublist
          have : (lowerStr kw).data = [] := List.eq_nil_of_sublist_nil hl
          exact hne (lowerStr_eq_empty_iff kw |>.mp (String.ext this))
        · have hl : kw.data.Sublist ([] : List Char) := hraw.sublist
          have : kw.data = [] := List.eq_nil_of_sublist_nil hl
          exact hne (String.ext this)
    · have hdef : is_off_topic cfg user_text =
          offKeywordLoop cfg (strTrim user_text) (lowerStr (strTrim user_text))
            (cfg.off_topic_keywords.filter (fun k => k ≠ "")) := by
        simp [is_off_topic, hempty]
      rw [hdef, offKeywordLoop_true_iff]
      constructor
      · rintro ⟨⟨kw, hmem, hm⟩, hs⟩
        have hmem' := List.mem_filter.mp hmem
        refine ⟨⟨kw, hmem'.1, by simpa using hmem'.2, ?_⟩, ?_⟩
        · have := (Bool.or_eq_true _ _).mp hm
          rcases this with h1 | h2
          · exact Or.inl ((strContains_iff _ _).mp h1)
          · exact Or.inr ((strContains_iff _ _).mp h2)
        · intro s hsmem hinf
          have : strongTcmHit (strTrim user_text) = true := by
            unfold strongTcmHit
            rw [List.any_eq_true]
            exact ⟨s, hsmem, (strContains_iff _ _).mpr hinf⟩
          rw [hs] at this; exact absurd this (by simp)
      · rintro ⟨⟨kw, hmem, hne, hmatch⟩, hs⟩
        refine ⟨⟨kw, List.mem_filter.mpr ⟨hmem, by simpa using hne⟩, ?_⟩, ?_⟩
        · rw [kwMatch, Bool.or_eq_true]
          rcases hmatch with h1 | h2
          · exact Or.inl ((strContains_iff _ _).mpr h1)
          · exact Or.inr ((strContains_iff _ _).mpr h2)
        · cases hx : strongTcmHit (strTrim user_text)
          · rfl
          · exfalso
            unfold strongTcmHit at hx
            rw [List.any_eq_true] at hx
            rcases hx with ⟨s, hsmem, hsc⟩
            exact hs s hsmem ((strContains_iff _ _).mp hsc)

/-! ## The session store (Upstash Redis) -/

/-- One parsed entry of the question_log Redis list: the JSON object
written by log_question (api/learning.py line 33). -/
structure QEntry where
  user_id : String
  text : String
  ts : Int
deriving DecidableEq

/-- The Redis data used by the bot: plain string keys, hashes (user_weak),
the last_review_ask timestamps (stored as stringified floats, modelled
numerically), and the question_log list. -/
structure RedisState where
  kv : List (String × String)
  hashes : List (String × List (String × Nat))
  reviewAsk : List (String × Int)
  qlog : List QEntry
deriving DecidableEq

def kvGet (s : RedisState) (k : String) : Option String :=
  (s.kv.find? (fun p => p.1 == k)).map (fun p => p.2)

def kvSet (s : RedisState) (k v : String) : RedisState :=
  { s with kv := (k, v) :: s.kv.filter (fun p => p.1 ≠ k) }

def kvDel (s : RedisState) (k : String) : RedisState :=
  { s with kv := s.kv.filter (fun p => p.1 ≠ k) }

def hashGet (s : RedisState) (k : String) : List (String × Nat) :=
  ((s.hashes.find? (fun p => p.1 == k)).map (fun p => p.2)).getD []

theorem kvGet_kvSet_self (s : RedisState) (k v : String) :
    kvGet (kvSet s k v) k = some v := by
  simp [kvGet, kvSet, List.find?]

theorem find?_filter_ne (l : List (String × String)) (k k' : String) (h : k' ≠ k) :
    (l.filter (fun p => p.1 ≠ k)).find? (fun p => p.1 == k') =
      l.find? (fun p => p.1 == k') := by
  rw [List.find?_filter]
  congr 1
  funext a
  by_cases ha : a.1 = k'
  · have h2 : (decide (a.1 ≠ k) : Bool) = true := by
      simp only [decide_eq_true_eq]
      rw [ha]; exact h
    simp [ha, h2, h]
  · simp [ha]

theorem kvGet_kvSet_ne (s : RedisState) (k k' v : String) (h : k' ≠ k) :
    kvGet (kvSet s k v) k' = kvGet s k' := by
  have h1 : (k == k') = false := by simpa using fun e => h e.symm
  simp only [kvGet, kvSet, List.find?, h1]
  rw [find?_filter_ne s.kv k k' h]

/-- Two strings with different first characters stay different after
appending a common suffix (used to separate the Redis key families). -/
theorem append_ne_of_head_ne (p q suffix : String) (cp cq : Char)
    (hp : p.data.head? = some cp) (hq : q.data.head? = some cq) (hne : cp ≠ cq) :
    p ++ suffix ≠ q ++ suffix := by
  intro h
  have hd : (p ++ suffix).data = (q ++ suffix).data := by rw [h]
  rw [String.data_append, String.data_append] at hd
  cases hpd : p.data with
  | nil => rw [hpd] at hp; exact absurd hp (by simp)
  | cons a as =>
    cases hqd : q.data with
    | nil => rw [hqd] at hq; exact absurd hq (by simp)
    | cons b bs =>
      rw [hpd] at hp; rw [hqd] at hq
      have ha : a = cp := by simpa using hp
      have hb : b = cq := by simpa using hq
      rw [hpd, hqd] at hd
      have : a = b := by
        have := congrArg List.head? hd
        simpa using this
      exact hne (ha ▸ hb ▸ this)

/-! ## api/learning.py -/

def STATE_NORMAL : String := "normal"
def STATE_QUIZ_WAITING : String := "quiz_waiting"
def QUESTION_LOG_MAX : Nat := 5000

/-- log_question (api/learning.py lines 28-37): skip on absent client or
blank text, else lpush the entry and ltrim the list to QUESTION_LOG_MAX. -/
def log_question (redis : Option RedisState) (user_id text : String) (now : Int) :
    Option RedisState :=
  match redis with
  | none => none
  | some s =>
    if strTrim text = "" then some s
    else
      some { s with qlog :=
        (({ user_id := user_id, text := strTake (strTrim text) 500, ts := now } : QEntry)
          :: s.qlog).take QUESTION_LOG_MAX }

/-- set_last_question (api/learning.py lines 40-47). -/
def set_last_question (redis : Option RedisState) (user_id text : String) :
    Option RedisState :=
  redis.map (fun s => kvSet s ("last_question:" ++ user_id) (strTake (strTrim text) 500))

/-- get_last_question (api/learning.py lines 50-59). -/
def get_last_question (redis : Option RedisState) (user_id : String) : Option String :=
  match redis with
  | none => none
  | some s => kvGet s ("last_question:" ++ user_id)

/-- set_last_assistant_message (api/learning.py lines 251-258). -/
def set_last_assistant_message (redis : Option RedisState) (user_id content : String) :
    Option RedisState :=
  redis.map (fun s =>
    kvSet s ("last_assistant_message:" ++ user_id) (strTake (strTrim content) 2000))

/-- get_last_assistant_message (api/learning.py lines 261-270). -/
def get_last_assistant_message (redis : Option RedisState) (user_id : String) :
    Option String :=
  match redis with
  | none => none
  | some s => kvGet s ("last_assistant_message:" ++ user_id)

/-- get_user_state (api/learning.py lines 103-113). -/
def get_user_state (redis : Option RedisState) (user_id : String) : String :=
  match redis with
  | none => STATE_NORMAL
  | some s =>
    match kvGet s ("user_state:" ++ user_id) with
    | none => STATE_NORMAL
    | some v => if strTrim v = "" then STATE_NORMAL else strTrim v

/-- set_user_state (api/learning.py lines 93-100). -/
def set_user_state (redis : Option RedisState) (user_id st : String) :
    Option RedisState :=
  redis.map (fun s =>
    kvSet s ("user_state:" ++ user_id) (strTake (if st = "" then STATE_NORMAL else st) 50))

/-- clear_quiz_pending (api/learning.py lines 84-90). -/
def clear_quiz_pending (redis : Option RedisState) (user_id : String) :
    Option RedisState :=
  redis.map (fun s => kvDel s ("quiz_pending:" ++ user_id))

/-- clear_quiz_data (api/learning.py lines 145-151). -/
def clear_quiz_data (redis : Option RedisState) (user_id : String) :
    Option RedisState :=
  redis.map (fun s => kvDel s ("quiz_data:" ++ user_id))

/-- get_weak_categories (api/learning.py lines 167-183): entries of the
user_weak hash whose count is at least min_count. -/
def get_weak_categories (redis : Option RedisState) (user_id : String)
    (min_count : Nat) : List (String × Nat) :=
  match redis with
  | none => []
  | some s => (hashGet s ("user_weak:" ++ user_id)).filter (fun p => min_count ≤ p.2)

/-- clear_weak_category (api/learning.py lines 186-193). -/
def clear_weak_category (redis : Option RedisState) (user_id category : String) :
    Option RedisState :=
  redis.map (fun s =>
    { s with hashes := s.hashes.map (fun p =>
        if p.1 = "user_weak:" ++ user_id then
          (p.1, p.2.filter (fun q => q.1 ≠ category))
        else p) })

/-- get_last_review_ask (api/learning.py lines 196-206). -/
def get_last_review_ask (redis : Option RedisState) (user_id : String) : Int :=
  match redis with
  | none => 0
  | some s => ((s.reviewAsk.find? (fun p => p.1 == user_id)).map (fun p => p.2)).getD 0

/-- set_last_review_ask (api/learning.py lines 209-215). -/
def set_last_review_ask (redis : Option RedisState) (user_id : String) (now : Int) :
    Option RedisState :=
  redis.map (fun s =>
    { s with reviewAsk := (user_id, now) :: s.reviewAsk.filter (fun p => p.1 ≠ user_id) })

/-- set_pending_review_category (api/learning.py lines 221-227). -/
def set_pending_review_category (redis : Option RedisState) (user_id category : String) :
    Option RedisState :=
  redis.map (fun s =>
    kvSet s ("pending_review_category:" ++ user_id) (strTake category 50))

/-- get_pending_review_category (api/learning.py lines 230-239). -/
def get_pending_review_category (redis : Option RedisState) (user_id : String) :
    Option String :=
  match redis with
  | none => none
  | some s => kvGet s ("pending_review_category:" ++ user_id)

/-- clear_pending_review_category (api/learning.py lines 242-248). -/
def clear_pending_review_category (redis : Option RedisState) (user_id : String) :
    Option RedisState :=
  redis.map (fun s => kvDel s ("pending_review_category:" ++ user_id))

/-! ## _safe_get_mode (api/index.py lines 373-395) -/

/-- Outcome of a raw Redis GET: a value, a missing key, or a raised
exception. -/
inductive RResult where
  | ok : Option String → RResult
  | err : RResult
deriving DecidableEq

/-- _safe_get_mode (api/index.py lines 373-395): "tcm" when the client is
absent, the key is missing, the value is blank, or the lookup raises;
otherwise the trimmed stored value. -/
def safe_get_mode (clientPresent : Bool) (lookup : String → RResult)
    (user_id : String) : String :=
  if clientPresent = false then "tcm"
  else
    match lookup ("user_mode:" ++ user_id) with
    | RResult.err => "tcm"
    | RResult.ok none => "tcm"
    | RResult.ok (some v) => if strTrim v = "" then "tcm" else strTrim v

/-- Reading the modelled store never raises. -/
def storeLookup (redis : Option RedisState) : String → RResult :=
  fun k =>
    match redis with
    | none => RResult.ok none
    | some s => RResult.ok (kvGet s k)

/-- _safe_get_mode as used by the handlers, over the modelled store. -/
def safe_get_mode_st (redis : Option RedisState) (user_id : String) : String :=
  safe_get_mode redis.isSome (storeLookup redis) user_id

/-- C7 counterexample: the claim says _safe_get_mode "returns the stored
mode string"; for the stored value " writing " the function returns the
trimmed string "writing", not the stored string. -/
theorem c7_counterexample_trimmed_mode :
    safe_get_mode true (fun _ => RResult.ok (some " writing ")) "U1" = "writing" ∧
      ("writing" : String) ≠ " writing " := by
  constructor
  · decide
  · decide

/-- C7 (amended): _safe_get_mode returns "tcm" when the client is absent,
the key is missing, the stored value is blank after trimming, or the lookup
raises; otherwise it returns the stored value trimmed of surrounding
whitespace, and the result depends only on the user's own user_mode key. -/
theorem c7_safe_get_mode_spec (present : Bool) (lookup lookup2 : String → RResult)
    (user_id : String) :
    (present = false → safe_get_mode present lookup user_id = "tcm") ∧
    (lookup ("user_mode:" ++ user_id) = RResult.err →
      safe_get_mode present lookup user_id = "tcm") ∧
    (lookup ("user_mode:" ++ user_id) = RResult.ok none →
      safe_get_mode present lookup user_id = "tcm") ∧
    (∀ v, present = true → lookup ("user_mode:" ++ user_id) = RResult.ok (some v) →
      (strTrim v = "" → safe_get_mode present lookup user_id = "tcm") ∧
      (strTrim v ≠ "" → safe_get_mode present lookup user_id = strTrim v)) ∧
    (lookup ("user_mode:" ++ user_id) = lookup2 ("user_mode:" ++ user_id) →
      safe_get_mode present lookup user_id = safe_get_mode present lookup2 user_id) := by
  refine ⟨?_, ?_, ?_, ?_, ?_⟩
  · intro h; simp [safe_get_mode, h]
  · intro h
    cases hp : present
    · simp [safe_get_mode]
    · simp [safe_get_mode, h]
  · intro h
    cases hp : present
    · simp [safe_get_mode]
    · simp [safe_get_mode, h]
  · intro v hpres hv
    subst hpres
    constructor
    · intro htrim
      simp [safe_get_mode, hv, htrim]
    · intro htrim
      simp [safe_get_mode, hv, htrim]
  · intro h
    cases hp : present
    · simp [safe_get_mode]
    · simp only [safe_get_mode, Bool.true_eq_false, if_false, h]

/-- C7 witness: the amended theorem applied at a concrete store that holds
"speaking" for the user. -/
theorem c7_safe_get_mode_witness :
    safe_get_mode true (fun _ => RResult.ok (some "speaking")) "U9" = "speaking" :=
  ((c7_safe_get_mode_spec true (fun _ => RResult.ok (some "speaking"))
      (fun _ => RResult.ok (some "speaking")) "U9").2.2.2.1 "speaking" rfl rfl).2 (by decide)

/-- C10: log_question never records an empty or whitespace-only question;
when it records, the new entry (user id, trimmed text truncated to 500
characters, timestamp) is placed first in question_log and the list is then
trimmed to at most QUESTION_LOG_MAX = 5000 entries, so a log of at most
5000 entries still has at most 5000 entries after every call. -/
theorem c10_log_question_spec (s : RedisState) (user_id text : String) (now : Int) :
    (strTrim text = "" → log_question (some s) user_id text now = some s) ∧
    (∀ s2, log_question (some s) user_id text now = some s2 →
      s.qlog.length ≤ QUESTION_LOG_MAX → s2.qlog.length ≤ QUESTION_LOG_MAX) ∧
    (strTrim text ≠ "" →
      log_question (some s) user_id text now =
        some { s with qlog :=
          (({ user_id := user_id, text := strTake (strTrim text) 500, ts := now } : QEntry)
            :: s.qlog).take QUESTION_LOG_MAX } ∧
      ∀ s2, log_question (some s) user_id text now = some s2 →
        s2.qlog.head? =
          some { user_id := user_id, text := strTake (strTrim text) 500, ts := now } ∧
        s2.qlog.length ≤ QUESTION_LOG_MAX ∧
        (strTake (strTrim text) 500).length ≤ 500 ∧
        ∀ e ∈ s2.qlog,
          e = ({ user_id := user_id, text := strTake (strTrim text) 500, ts := now } : QEntry) ∨
            e ∈ s.qlog) := by
  refine ⟨?_, ?_, ?_⟩
  · intro h; simp [log_question, h]
  · intro s2 hs2 hlen
    by_cases h : strTrim text = ""
    · simp only [log_question, h, if_pos] at hs2
      cases hs2; simpa using hlen
    · simp only [log_question, if_neg h] at hs2
      cases hs2
      simpa using List.length_take_le QUESTION_LOG_MAX _
  · intro h
    constructor
    · simp [log_question, h]
    · intro s2 hs2
      simp only [log_question, if_neg h] at hs2
      cases hs2
      refine ⟨?_, ?_, ?_, ?_⟩
      · have hmax : QUESTION_LOG_MAX = 4999 + 1 := rfl
        rw [hmax, List.take_succ_cons]
        rfl
      · simpa using List.length_take_le QUESTION_LOG_MAX _
      · exact List.length_take_le 500 (strTrim text).data
      · intro e he
        have := List.take_subset QUESTION_LOG_MAX _ he
        exact List.mem_cons.mp this

/-- An empty session store, used by concrete test instances below. -/
def emptyStore : RedisState := ⟨[], [], [], []⟩

/-- C10 witness: recording one question into an empty store. -/
theorem c10_log_question_witness :
    log_question (some emptyStore) "U1" " 氣是什麼？ " 5 =
      some { emptyStore with qlog :=
        (({ user_id := "U1", text := strTake (strTrim " 氣是什麼？ ") 500, ts := 5 } : QEntry)
          :: emptyStore.qlog).take QUESTION_LOG_MAX } :=
  ((c10_log_question_spec emptyStore "U1" " 氣是什麼？ " 5).2.2 (by decide)).1

/-! ## api/weekly_report.py -/

def TOP_N_CONCEPTS : Nat := 10
def BATCH_SIZE : Nat := 20

/-- _fetch_questions (api/weekly_report.py lines 22-44): entries of the
parsed question_log whose timestamp is within the last 7 days and whose
text is non-empty (Python truthiness of obj.get("text")). -/
def fetch_questions (qlog : List QEntry) (now : Int) : List QEntry :=
  qlog.filter (fun q => now - 7 * 24 * 3600 ≤ q.ts ∧ q.text ≠ "")

/-- The batching loop of get_top_confused_concepts
(api/weekly_report.py lines 72-73): texts[i, i+BATCH_SIZE] slices. -/
def toBatches {α : Type} (n : Nat) : List α → List (List α)
  | [] => []
  | x :: xs => (x :: xs.take (n - 1)) :: toBatches n (xs.drop (n - 1))
termination_by l => l.length
decreasing_by simp [List.length_drop]; omega

/-- _assign_concepts_batch (api/weekly_report.py lines 47-62): the LLM
response parsing is abstracted into the oracle llm, the code prompts with
texts[:BATCH_SIZE] and keeps at most len(texts) parsed concepts. -/
def assign_concepts_batch (llm : List String → List String) (texts : List String) :
    List String :=
  if texts = [] then [] else (llm (texts.take BATCH_SIZE)).take texts.length

/-- The concept normalisation in the counting loop
(api/weekly_report.py line 80): (c or "其他").strip() or "其他". -/
def normalize_concept (c : String) : String :=
  if strTrim c = "" then "其他" else strTrim c

/-- The all_concepts accumulator of get_top_confused_concepts
(api/weekly_report.py lines 71-77): per-batch labels truncated to the batch
size, then padded with "其他" up to the number of questions. -/
def all_concepts (llm : List String → List String) (texts : List String) :
    List String :=
  let base := (toBatches BATCH_SIZE texts).flatMap
    (fun b => (assign_concepts_batch llm b).take b.length)
  base ++ List.replicate (texts.length - base.length) "其他"

/-- One step of the Python dict counting loop
(api/weekly_report.py lines 78-81). -/
def bumpCount (l : List (String × Nat)) (c : String) : List (String × Nat) :=
  if l.any (fun p => p.1 == c) then
    l.map (fun p => if p.1 = c then (p.1, p.2 + 1) else p)
  else l ++ [(c, 1)]

/-- The counts dict of get_top_confused_concepts, insertion-ordered. -/
def concept_counts (cs : List String) : List (String × Nat) :=
  cs.foldl (fun acc c => bumpCount acc (normalize_concept c)) []

/-- sorted(counts.items(), key=lambda x: -x[1])
(api/weekly_report.py line 82). -/
def sorted_counts (cs : List String) : List (String × Nat) :=
  (concept_counts cs).mergeSort (fun a b => decide (b.2 ≤ a.2))

/-- get_top_confused_concepts (api/weekly_report.py lines 65-83). -/
def get_top_confused_concepts (llm : List String → List String)
    (qlog : List QEntry) (now : Int) (top_n : Nat) : List (String × Nat) :=
  let questions := fetch_questions qlog now
  if questions = [] then []
  else
    let texts := questions.map (fun q => q.text)
    (sorted_counts (all_concepts llm texts)).take top_n

/-! ### Lemmas about the weekly-report aggregation -/

theorem toBatches_flatten_aux {α : Type} (n : Nat) :
    ∀ (m : Nat) (l : List α), l.length ≤ m → (toBatches n l).flatten = l := by
  intro m
  induction m with
  | zero =>
    intro l h
    cases l with
    | nil => simp [toBatches]
    | cons x xs => simp at h
  | succ m ih =>
    intro l h
    cases l with
    | nil => simp [toBatches]
    | cons x xs =>
      simp only [toBatches, List.flatten_cons]
      rw [ih (xs.drop (n - 1)) ?_]
      · rw [List.cons_append, List.take_append_drop]
      · have : (xs.drop (n - 1)).length ≤ xs.length := by
          rw [List.length_drop]; omega
        have hx : xs.length ≤ m := by
          simp only [List.length_cons] at h; omega
        omega

theorem toBatches_flatten {α : Type} (n : Nat) (l : List α) :
    (toBatches n l).flatten = l :=
  toBatches_flatten_aux n l.length l (Nat.le_refl _)

theorem toBatches_mem_length_aux {α : Type} (n : Nat) (hn : 1 ≤ n) :
    ∀ (m : Nat) (l : List α), l.length ≤ m →
      ∀ b ∈ toBatches n l, b.length ≤ n := by
  intro m
  induction m with
  | zero =>
    intro l h b hb
    cases l with
    | nil => simp [toBatches] at hb
    | cons x xs => simp at h
  | succ m ih =>
    intro l h b hb
    cases l with
    | nil => simp [toBatches] at hb
    | cons x xs =>
      simp only [toBatches, List.mem_cons] at hb
      rcases hb with hb | hb
      · subst hb
        have : (xs.take (n - 1)).length ≤ n - 1 := List.length_take_le _ _
        simp only [List.length_cons]
        omega
      · refine ih (xs.drop (n - 1)) ?_ b hb
        have : (xs.drop (n - 1)).length ≤ xs.length := by
          rw [List.length_drop]; omega
        have hx : xs.length ≤ m := by
          simp only [List.length_cons] at h; omega
        omega

theorem toBatches_mem_length {α : Type} (n : Nat) (hn : 1 ≤ n) (l : List α) :
    ∀ b ∈ toBatches n l, b.length ≤ n :=
  toBatches_mem_length_aux n hn l.length l (Nat.le_refl _)

theorem flatMap_length_le_flatten {α : Type} (f : List α → List α) 
    (hf : ∀ b, (f b).length ≤ b.length) :
    ∀ bs : List (List α), (bs.flatMap f).length ≤ bs.flatten.length := by
  intro bs
  induction bs with
  | nil => simp
  | cons b rest ih =>
    simp only [List.flatMap_cons, List.flatten_cons, List.length_append]
    have := hf b
    omega

theorem all_concepts_length (llm : List String → List String) (texts : List String) :
    (all_concepts llm texts).length = texts.length := by
  unfold all_concepts
  have hbase : ((toBatches BATCH_SIZE texts).flatMap
      (fun b => (assign_concepts_batch llm b).take b.length)).length ≤ texts.length := by
    have h1 := flatMap_length_le_flatten
      (fun b => (assign_concepts_batch llm b).take b.length)
      (fun b => List.length_take_le _ _) (toBatches BATCH_SIZE texts)
    rw [toBatches_flatten] at h1
    exact h1
  simp only [List.length_append, List.length_replicate]
  omega

theorem bumpCount_map_fst_any (l : List (String × Nat)) (c : String)
    (hany : l.any (fun p => p.1 == c) = true) :
    (bumpCount l c).map Prod.fst = l.map Prod.fst := by
  simp only [bumpCount, hany, if_pos]
  rw [List.map_map]
  refine List.map_congr_left ?_
  intro p _
  by_cases hp : p.1 = c
  · simp [Function.comp, hp]
  · simp [Function.comp, hp]

theorem bumpCount_nodup (l : List (String × Nat)) (c : String)
    (h : (l.map Prod.fst).Nodup) : ((bumpCount l c).map Prod.fst).Nodup := by
  by_cases hany : l.any (fun p => p.1 == c) = true
  · rw [bumpCount_map_fst_any l c hany]; exact h
  · have hany' : l.any (fun p => p.1 == c) = false := by
      cases hx : l.any (fun p => p.1 == c)
      · rfl
      · exact absurd hx hany
    simp only [bumpCount, hany', Bool.false_eq_true, if_false]
    rw [List.map_append]
    refine List.Nodup.append h (by simp) ?_
    intro a ha hb
    simp only [List.map_cons, List.map_nil, List.mem_singleton] at hb
    subst hb
    rcases List.mem_map.mp ha with ⟨p, hp, hpc⟩
    have hne := List.any_eq_false.mp hany' p hp
    apply hne
    simp [hpc]

theorem mapBump_sum (c : String) :
    ∀ l : List (String × Nat), (l.map Prod.fst).Nodup →
      l.any (fun p => p.1 == c) = true →
      ((l.map (fun p => if p.1 = c then (p.1, p.2 + 1) else p)).map Prod.snd).sum
        = (l.map Prod.snd).sum + 1 := by
  intro l
  induction l with
  | nil => intro _ hany; simp at hany
  | cons p rest ih =>
    intro hnodup hany
    have hnr : (rest.map Prod.fst).Nodup := (List.nodup_cons.mp hnodup).2
    by_cases hp : p.1 = c
    · have hrest : rest.map (fun q => if q.1 = c then (q.1, q.2 + 1) else q) = rest := by
        have : ∀ q ∈ rest, (if q.1 = c then (q.1, q.2 + 1) else q) = q := by
          intro q hq
          have hqc : q.1 ≠ c := by
            intro hqc
            have hmem : c ∈ rest.map Prod.fst := by
              rw [← hqc]; exact List.mem_map_of_mem Prod.fst hq
            have := (List.nodup_cons.mp hnodup).1
            rw [hp] at this
            exact this hmem
          simp [hqc]
        rw [List.map_congr_left this]
        simp
      simp only [List.map_cons, hp, if_pos, hrest, List.sum_cons]
      omega
    · have hpf : (p.1 == c) = false := by simpa using hp
      have hrest : rest.any (fun q => q.1 == c) = true := by
        simp only [List.any_cons, hpf, Bool.false_or] at hany
        exact hany
      simp only [List.map_cons, hp, if_neg, List.sum_cons, ite_false]
      rw [ih hnr hrest]
      omega

theorem bumpCount_sum (l : List (String × Nat)) (c : String)
    (h : (l.map Prod.fst).Nodup) :
    ((bumpCount l c).map Prod.snd).sum = (l.map Prod.snd).sum + 1 := by
  by_cases hany : l.any (fun p => p.1 == c) = true
  · simp only [bumpCount, hany, if_pos]
    exact mapBump_sum c l h hany
  · have hany' : l.any (fun p => p.1 == c) = false := by
      cases hx : l.any (fun p => p.1 == c)
      · rfl
      · exact absurd hx hany
    simp only [bumpCount, hany', Bool.false_eq_true, if_false]
    rw [List.map_append, List.sum_append]
    simp

theorem concept_counts_sum_aux (cs : List String) :
    ∀ acc : List (String × Nat), (acc.map Prod.fst).Nodup →
      (((cs.foldl (fun a c => bumpCount a (normalize_concept c)) acc).map Prod.snd).sum
          = (acc.map Prod.snd).sum + cs.length) ∧
      ((cs.foldl (fun a c => bumpCount a (normalize_concept c)) acc).map Prod.fst).Nodup := by
  induction cs with
  | nil => intro acc h; simpa using h
  | cons c rest ih =>
    intro acc h
    simp only [List.foldl_cons, List.length_cons]
    have hstep := bumpCount_sum acc (normalize_concept c) h
    have hnodup := bumpCount_nodup acc (normalize_concept c) h
    have := ih (bumpCount acc (normalize_concept c)) hnodup
    refine ⟨?_, this.2⟩
    rw [this.1, hstep]
    omega

theorem concept_counts_sum (cs : List String) :
    ((concept_counts cs).map Prod.snd).sum = cs.length := by
  have := (concept_counts_sum_aux cs [] (by simp)).1
  simpa [concept_counts] using this

theorem sorted_counts_sum (cs : List String) :
    ((sorted_counts cs).map Prod.snd).sum = cs.length := by
  have hperm : (sorted_counts cs).Perm (concept_counts cs) :=
    List.mergeSort_perm (concept_counts cs) _
  have := (hperm.map Prod.snd).sum_eq
  rw [this, concept_counts_sum]

theorem sorted_counts_pairwise (cs : List String) :
    List.Pairwise (fun a b => b.2 ≤ a.2) (sorted_counts cs) := by
  have h := @List.sorted_mergeSort (String × Nat) (fun a b => decide (b.2 ≤ a.2))
    (fun a b c hab hbc => by
      simp only [decide_eq_true_eq] at hab hbc ⊢
      omega)
    (fun a b => by
      by_cases hab : b.2 ≤ a.2
      · simp [hab]
      · have : a.2 ≤ b.2 := by omega
        simp [this])
    (concept_counts cs)
  refine h.imp ?_
  intro a b hab
  simpa using hab

/-- C6: over the questions fetched for the last 7 days,
get_top_confused_concepts assigns every fetched question exactly one
concept label, the LLM is invoked on batches of at most BATCH_SIZE = 20
questions, the returned list holds at most TOP_N_CONCEPTS = 10 pairs and
is sorted by non-increasing count, and the counts over all concepts
(returned or not) sum to the number of fetched questions. -/
theorem c6_get_top_confused_spec (llm : List String → List String)
    (qlog : List QEntry) (now : Int) :
    (all_concepts llm ((fetch_questions qlog now).map (fun q => q.text))).length
        = (fetch_questions qlog now).length ∧
    (∀ b ∈ toBatches BATCH_SIZE ((fetch_questions qlog now).map (fun q => q.text)),
        b.length ≤ BATCH_SIZE) ∧
    (get_top_confused_concepts llm qlog now TOP_N_CONCEPTS).length ≤ TOP_N_CONCEPTS ∧
    List.Pairwise (fun a b => b.2 ≤ a.2)
      (get_top_confused_concepts llm qlog now TOP_N_CONCEPTS) ∧
    ((sorted_counts (all_concepts llm
        ((fetch_questions qlog now).map (fun q => q.text)))).map Prod.snd).sum
      = (fetch_questions qlog now).length := by
  refine ⟨?_, ?_, ?_, ?_, ?_⟩
  · rw [all_concepts_length, List.length_map]
  · exact toBatches_mem_length BATCH_SIZE (by decide) _
  · unfold get_top_confused_concepts
    by_cases h : fetch_questions qlog now = []
    · simp [h]
    · simp only [h, if_neg, ite_false]
      exact List.length_take_le _ _
  · unfold get_top_confused_concepts
    by_cases h : fetch_questions qlog now = []
    · simp [h]
    · simp only [h, if_neg, ite_false]
      exact (sorted_counts_pairwise _).sublist (List.take_sublist _ _)
  · rw [sorted_counts_sum, all_concepts_length, List.length_map]

/-! ## api/index.py: constants, effect actions and the environment -/

def SAFETY_DISCLAIMER : String := "\n\n⚠️ 僅供教學用途，不具醫療建議。"
def TIMEOUT_SECONDS : Nat := 28
def TIMEOUT_MESSAGE : String := "正在努力翻閱典籍/資料中，請稍候再問我一次。"
def REVISION_MODE : String := "writing"

/-- Outcome of a fire-and-forget HTTP POST from the handler's point of
view: a response arrived in time, the request was sent but reading the
response timed out, the connection itself timed out, or some other
exception was raised. -/
inductive PostOutcome where
  | delivered
  | readTimeout
  | connectTimeout
  | otherError
deriving DecidableEq

/-- Externally visible effects of the handlers, in execution order.
LINE replies/pushes carry their text content; Flex messages carry their
alt text; runPollSleeps n records that the assistant-run polling loop
executed n one-second sleeps; courseFlex abstracts
send_course_inquiry_flex (which builds the Flex bubble and may issue a
chat completion for the weekly highlights, but never polls a run). -/
inductive Act where
  | reply (text : String)
  | replyFlex (alt : String)
  | pushText (text : String)
  | pushAudio (url : String) (durationMs : Nat)
  | courseFlex (isReply : Bool)
  | chatCompletion
  | createThread
  | createMessage
  | createRun
  | runPollSleeps (n : Nat)
  | listMessages
  | postVoiceAsync (timeoutMs : Nat) (outcome : PostOutcome)
  | spawnBackgroundThread
  | downloadAudio (message_id : String)
  | transcribeAudio
  | ttsSynthesize
  | uploadCloudinary
deriving DecidableEq

/-- Oracle data returned by the external services during one event:
the classifier config, the wall clock, the id a fresh thread would get,
the run status visible at the k-th poll, the texts the LLM endpoints
would return, the Whisper transcript, the speech evaluation and the TTS
upload result. -/
structure BotEnv where
  cfg : SylConfig
  now : Int
  newThreadId : String
  runStatus : Nat → String
  assistantReply : String
  chatReply : String
  quizQuestion : String
  reviewNote : String
  transcript : String
  speechCorrect : Bool
  speechFeedback : String
  speechCorrected : String
  ttsResult : Option (String × Nat)

/-! ## The assistant-run polling loop (api/index.py lines 448-453) -/

/-- run.status in ['queued', 'in_progress']. -/
def runActive (st : String) : Bool := st = "queued" || st = "in_progress"

/-- The while loop, with the idealised clock: at the top of the k-th
iteration k seconds have elapsed (k sleeps of 1 second so far); the loop
first re-checks the status, then breaks when the elapsed time exceeds
TIMEOUT_SECONDS, else sleeps 1s and retrieves the run again.  The fuel
argument only serves termination; 30 units are enough since the loop
always stops by k = 29. -/
def pollAux (status : Nat → String) : Nat → Nat → String × Nat
  | 0, k => (status k, k)
  | fuel + 1, k =>
    if runActive (status k) then
      if TIMEOUT_SECONDS < k then (status k, k)
      else pollAux status fuel (k + 1)
    else (status k, k)

/-- The polling loop of process_ai_request: returns the final run status
and the number of one-second sleeps executed. -/
def pollRun (status : Nat → String) : String × Nat := pollAux status 30 0

theorem pollAux_spec (status : Nat → String) :
    ∀ (fuel k : Nat), 30 ≤ fuel + k →
      (pollAux status fuel k).1 = status (pollAux status fuel k).2 ∧
      k ≤ (pollAux status fuel k).2 ∧
      (runActive (status (pollAux status fuel k).2) = false ∨
        TIMEOUT_SECONDS < (pollAux status fuel k).2) ∧
      (∀ i, k ≤ i → i < (pollAux status fuel k).2 →
        runActive (status i) = true ∧ i ≤ TIMEOUT_SECONDS) := by
  intro fuel
  induction fuel with
  | zero =>
    intro k hk
    refine ⟨rfl, Nat.le_refl _, Or.inr ?_, ?_⟩
    · show TIMEOUT_SECONDS < k
      simp only [TIMEOUT_SECONDS]; omega
    · intro i h1 h2
      exact absurd (Nat.lt_of_le_of_lt h1 h2) (Nat.lt_irrefl _)
  | succ fuel ih =>
    intro k hk
    by_cases ha : runActive (status k) = true
    · by_cases ht : TIMEOUT_SECONDS < k
      · have hv : pollAux status (fuel + 1) k = (status k, k) := by
          simp [pollAux, ha, ht]
        rw [hv]
        refine ⟨rfl, Nat.le_refl _, Or.inr ht, ?_⟩
        intro i h1 h2
        exact absurd (Nat.lt_of_le_of_lt h1 h2) (Nat.lt_irrefl _)
      · have hv : pollAux status (fuel + 1) k = pollAux status fuel (k + 1) := by
          simp [pollAux, ha, ht]
        have hrec := ih (k + 1) (by omega)
        rw [hv]
        refine ⟨hrec.1, by omega, hrec.2.2.1, ?_⟩
        intro i h1 h2
        by_cases hik : i = k
        · subst hik
          exact ⟨ha, by omega⟩
        · exact hrec.2.2.2 i (by omega) h2
    · have ha' : runActive (status k) = false := by
        cases hx : runActive (status k)
        · rfl
        · exact absurd hx ha
      have hv : pollAux status (fuel + 1) k = (status k, k) := by
        simp [pollAux, ha']
      rw [hv]
      refine ⟨rfl, Nat.le_refl _, Or.inl ha', ?_⟩
      intro i h1 h2
      exact absurd (Nat.lt_of_le_of_lt h1 h2) (Nat.lt_irrefl _)

/-- Characterisation of the polling loop: the final status is the status
observed at the stopping index, the loop stopped either because the run
left the active states or because more than TIMEOUT_SECONDS seconds had
elapsed, and before the stopping index every poll saw an active run within
the deadline. -/
theorem pollRun_spec (status : Nat → String) :
    (pollRun status).1 = status (pollRun status).2 ∧
    (runActive (status (pollRun status).2) = false ∨
      TIMEOUT_SECONDS < (pollRun status).2) ∧
    (∀ i < (pollRun status).2, runActive (status i) = true ∧ i ≤ TIMEOUT_SECONDS) ∧
    (pollRun status).2 ≤ TIMEOUT_SECONDS + 1 := by
  have h := pollAux_spec status 30 0 (by omega)
  refine ⟨h.1, h.2.2.1, ?_, ?_⟩
  · intro i hi
    exact h.2.2.2 i (Nat.zero_le _) hi
  · by_cases hle : (pollAux status 30 0).2 ≤ TIMEOUT_SECONDS + 1
    · exact hle
    · exfalso
      have h29 := h.2.2.2 (TIMEOUT_SECONDS + 1) (Nat.zero_le _) (by
        show TIMEOUT_SECONDS + 1 < (pollAux status 30 0).2
        omega)
      omega

/-! ## api/index.py: the AI request orchestrator -/

/-- _revision_handler (api/index.py lines 334-359): blank text asks for a
paragraph; otherwise one chat completion is issued and its (trimmed)
content, or the fallback text when empty, is pushed.  The session store is
not touched. -/
def revision_handler (env : BotEnv) (redis : Option RedisState) (user_id text : String) :
    Option RedisState × List Act :=
  if strTrim text = "" then
    (redis, [Act.pushText "請貼上要修改的段落。"])
  else
    let reply := strTrim env.chatReply
    let reply2 := if reply = "" then "已收到你的練習！歡迎繼續貼上其他句子～" else reply
    (redis, [Act.chatCompletion, Act.pushText reply2])

/-- The stored-thread resolution of process_ai_request (api/index.py lines
412-421): the stored value is used unless it is missing, the literal
string "None", or blank after trimming. -/
def thread_id_of (redis : Option RedisState) (user_id : String) : Option String :=
  match redis with
  | none => none
  | some s =>
    match kvGet s ("user_thread:" ++ user_id) with
    | none => none
    | some t => if t = "None" ∨ strTrim t = "" then none else some t


/-- The store after the thread-resolution block (api/index.py lines
423-430): unchanged when a stored thread is reused, else the fresh thread
id is written under user_thread. -/
def threadStore (env : BotEnv) (redis : Option RedisState) (user_id : String) :
    Option RedisState :=
  match thread_id_of redis user_id with
  | some _ => redis
  | none => redis.map (fun s => kvSet s ("user_thread:" ++ user_id) env.newThreadId)

/-- The thread-resolution effect: a threads.create call exactly when no
stored thread id is usable. -/
def threadActs (redis : Option RedisState) (user_id : String) : List Act :=
  match thread_id_of redis user_id with
  | some _ => []
  | none => [Act.createThread]

/-- The reply text assembled on completion (api/index.py lines 457-459):
in tcm mode the right-stripped assistant reply with SAFETY_DISCLAIMER
appended, otherwise the assistant reply as is. -/
def aiReplyText (env : BotEnv) (mode : String) : String :=
  if mode = "tcm" then strTrimR env.assistantReply ++ SAFETY_DISCLAIMER
  else env.assistantReply

/-- The text pushed on completion (api/index.py lines 463-466): in tcm
mode the quiz offer is appended. -/
def aiPushBody (env : BotEnv) (mode : String) : String :=
  if mode = "tcm" then aiReplyText env mode ++ "\n\n是否要進行一題小測驗？"
  else aiReplyText env mode

/-- The assistant path of process_ai_request (api/index.py lines 406-468):
resolve or create the thread, send the message, create the run, poll, and
either push the reply (with disclaimer and quiz offer in tcm mode) after
logging the question, or push TIMEOUT_MESSAGE. -/
def assistant_flow (env : BotEnv) (redis : Option RedisState)
    (user_id text mode : String) : Option RedisState × List Act :=
  let redis1 := threadStore env redis user_id
  let poll := pollRun env.runStatus
  let baseActs := threadActs redis user_id ++
    [Act.createMessage, Act.createRun, Act.runPollSleeps poll.2]
  if poll.1 = "completed" then
    let ai_reply := aiReplyText env mode
    let redis4 := set_last_assistant_message
      (set_last_question (log_question redis1 user_id text env.now) user_id text)
      user_id ai_reply
    if mode = "tcm" then
      (redis4, baseActs ++ [Act.listMessages,
        Act.pushText (ai_reply ++ "\n\n是否要進行一題小測驗？")])
    else
      (redis4, baseActs ++ [Act.listMessages, Act.pushText ai_reply])
  else
    (redis1, baseActs ++ [Act.pushText TIMEOUT_MESSAGE])

/-- process_ai_request (api/index.py lines 398-471): the mode router.
Writing mode goes to _revision_handler and never touches the assistant
API; every other mode goes down the assistant path. -/
def process_ai_request (env : BotEnv) (redis : Option RedisState)
    (user_id text : String) : Option RedisState × List Act :=
  let mode := safe_get_mode_st redis user_id
  if mode = REVISION_MODE then revision_handler env redis user_id text
  else assistant_flow env redis user_id text mode

theorem assistant_flow_fst (env : BotEnv) (redis : Option RedisState)
    (user_id text mode : String) :
    (assistant_flow env redis user_id text mode).1 =
      if (pollRun env.runStatus).1 = "completed" then
        set_last_assistant_message
          (set_last_question
            (log_question (threadStore env redis user_id) user_id text env.now)
            user_id text)
          user_id (aiReplyText env mode)
      else threadStore env redis user_id := by
  unfold assistant_flow
  by_cases hpoll : (pollRun env.runStatus).1 = "completed"
  · by_cases hm : mode = "tcm"
    · simp [hpoll, hm]
    · simp [hpoll, hm]
  · simp [hpoll]

theorem assistant_flow_snd (env : BotEnv) (redis : Option RedisState)
    (user_id text mode : String) :
    (assistant_flow env redis user_id text mode).2 =
      threadActs redis user_id ++
        [Act.createMessage, Act.createRun, Act.runPollSleeps (pollRun env.runStatus).2] ++
        (if (pollRun env.runStatus).1 = "completed" then
          [Act.listMessages, Act.pushText (aiPushBody env mode)]
        else [Act.pushText TIMEOUT_MESSAGE]) := by
  unfold assistant_flow
  by_cases hpoll : (pollRun env.runStatus).1 = "completed"
  · by_cases hm : mode = "tcm"
    · simp [hpoll, hm, aiPushBody]
    · simp [hpoll, hm, aiPushBody]
  · simp [hpoll]

/-! ### Trace observations -/

/-- The texts pushed to the user, in order. -/
def pushedTexts (l : List Act) : List String :=
  l.filterMap (fun a => match a with
    | Act.pushText t => some t
    | _ => none)

/-- Seconds spent sleeping in the run-polling loop by an action. -/
def pollOf : Act → Nat
  | Act.runPollSleeps n => n
  | _ => 0

/-- Total seconds a trace spends inside the run-polling loop. -/
def pollWaitSeconds (l : List Act) : Nat := (l.map pollOf).sum

/-- True when no run-polling action occurs before the first LINE reply:
scanning the trace, a reply settles it positively and a polling action
settles it negatively. -/
def acksBeforePolling : List Act → Bool
  | [] => true
  | Act.reply _ :: _ => true
  | Act.runPollSleeps _ :: _ => false
  | _ :: rest => acksBeforePolling rest

/-! ### Store bookkeeping lemmas -/

theorem append_ne_of_getElem_ne (p q u : String) (i : Nat)
    (hp : i < p.data.length) (hq : i < q.data.length)
    (hne : p.data[i]? ≠ q.data[i]?) : p ++ u ≠ q ++ u := by
  intro h
  have hd : p.data ++ u.data = q.data ++ u.data := by
    have := congrArg String.data h
    rwa [String.data_append, String.data_append] at this
  have h1 : (p.data ++ u.data)[i]? = p.data[i]? := List.getElem?_append_left hp
  have h2 : (q.data ++ u.data)[i]? = q.data[i]? := List.getElem?_append_left hq
  apply hne
  rw [← h1, ← h2, hd]

theorem thrKey_ne_lqKey (u : String) :
    "user_thread:" ++ u ≠ "last_question:" ++ u :=
  append_ne_of_getElem_ne _ _ u 0 (by decide) (by decide) (by decide)

theorem thrKey_ne_laKey (u : String) :
    "user_thread:" ++ u ≠ "last_assistant_message:" ++ u :=
  append_ne_of_getElem_ne _ _ u 0 (by decide) (by decide) (by decide)

theorem modeKey_ne_lqKey (u : String) :
    "user_mode:" ++ u ≠ "last_question:" ++ u :=
  append_ne_of_getElem_ne _ _ u 0 (by decide) (by decide) (by decide)

theorem modeKey_ne_laKey (u : String) :
    "user_mode:" ++ u ≠ "last_assistant_message:" ++ u :=
  append_ne_of_getElem_ne _ _ u 0 (by decide) (by decide) (by decide)

theorem modeKey_ne_thrKey (u : String) :
    "user_mode:" ++ u ≠ "user_thread:" ++ u :=
  append_ne_of_getElem_ne _ _ u 5 (by decide) (by decide) (by decide)

theorem log_question_kv (s : RedisState) (user_id text : String) (now : Int) :
    ∀ s2, log_question (some s) user_id text now = some s2 → s2.kv = s.kv := by
  intro s2 h
  by_cases ht : strTrim text = ""
  · simp only [log_question, ht, if_pos] at h
    cases h; rfl
  · simp only [log_question, if_neg ht] at h
    cases h; rfl

theorem log_question_some (s : RedisState) (user_id text : String) (now : Int) :
    ∃ s1, log_question (some s) user_id text now = some s1 := by
  by_cases ht : strTrim text = ""
  · exact ⟨s, by simp [log_question, ht]⟩
  · exact ⟨{ s with qlog :=
      (({ user_id := user_id, text := strTake (strTrim text) 500, ts := now } : QEntry)
        :: s.qlog).take QUESTION_LOG_MAX }, by simp [log_question, ht]⟩

theorem kvGet_congr (s t : RedisState) (k : String) (h : s.kv = t.kv) :
    kvGet s k = kvGet t k := by
  simp [kvGet, h]

theorem safe_get_mode_st_eq_of_kv (s2 s : RedisState) (user_id : String)
    (h : kvGet s2 ("user_mode:" ++ user_id) = kvGet s ("user_mode:" ++ user_id)) :
    safe_get_mode_st (some s2) user_id = safe_get_mode_st (some s) user_id := by
  simp [safe_get_mode_st, safe_get_mode, storeLookup, h]

/-- Through one assistant-path call of process_ai_request, the value of any
key other than the two last-message keys is read through the
thread-resolution store alone. -/
theorem process_store_keys (env : BotEnv) (s : RedisState) (user_id text : String)
    (k : String)
    (hk1 : k ≠ "last_question:" ++ user_id)
    (hk2 : k ≠ "last_assistant_message:" ++ user_id)
    (hmode : safe_get_mode_st (some s) user_id ≠ REVISION_MODE) :
    ∀ s2, (process_ai_request env (some s) user_id text).1 = some s2 →
      ∃ s1, threadStore env (some s) user_id = some s1 ∧ kvGet s2 k = kvGet s1 k := by
  intro s2 h2
  unfold process_ai_request at h2
  rw [if_neg hmode, assistant_flow_fst] at h2
  cases hts : threadStore env (some s) user_id with
  | none =>
    exfalso
    unfold threadStore at hts
    cases hth : thread_id_of (some s) user_id with
    | some t => rw [hth] at hts; exact absurd hts (by simp)
    | none => rw [hth] at hts; exact absurd hts (by simp)
  | some s1 =>
    refine ⟨s1, rfl, ?_⟩
    rw [hts] at h2
    by_cases hpoll : (pollRun env.runStatus).1 = "completed"
    · rw [if_pos hpoll] at h2
      rcases log_question_some s1 user_id text env.now with ⟨sq, hsq⟩
      rw [hsq] at h2
      simp only [set_last_question, set_last_assistant_message, Option.map_some] at h2
      cases h2
      rw [kvGet_kvSet_ne _ _ _ _ hk2, kvGet_kvSet_ne _ _ _ _ hk1]
      exact kvGet_congr _ _ _ (log_question_kv s1 user_id text env.now sq hsq)
    · rw [if_neg hpoll] at h2
      cases h2
      rfl

theorem process_ai_request_eq (env : BotEnv) (redis : Option RedisState)
    (user_id text : String) (hmode : safe_get_mode_st redis user_id ≠ REVISION_MODE) :
    process_ai_request env redis user_id text =
      assistant_flow env redis user_id text (safe_get_mode_st redis user_id) := by
  simp only [process_ai_request]
  rw [if_neg hmode]

theorem process_ai_request_eq_revision (env : BotEnv) (redis : Option RedisState)
    (user_id text : String) (hmode : safe_get_mode_st redis user_id = REVISION_MODE) :
    process_ai_request env redis user_id text = revision_handler env redis user_id text := by
  simp only [process_ai_request]
  rw [if_pos hmode]

theorem pushedTexts_append (a b : List Act) :
    pushedTexts (a ++ b) = pushedTexts a ++ pushedTexts b :=
  List.filterMap_append a b _

theorem pushedTexts_threadActs (redis : Option RedisState) (user_id : String) :
    pushedTexts (threadActs redis user_id) = [] := by
  unfold threadActs
  cases thread_id_of redis user_id
  · simp [pushedTexts]
  · simp [pushedTexts]

theorem threadStore_some (env : BotEnv) (s : RedisState) (user_id : String) :
    ∃ s1, threadStore env (some s) user_id = some s1 := by
  unfold threadStore
  cases thread_id_of (some s) user_id
  · exact ⟨kvSet s ("user_thread:" ++ user_id) env.newThreadId, by simp⟩
  · exact ⟨s, rfl⟩

theorem thread_id_of_some_inv (s : RedisState) (user_id t : String)
    (h : thread_id_of (some s) user_id = some t) :
    kvGet s ("user_thread:" ++ user_id) = some t ∧ t ≠ "None" ∧ strTrim t ≠ "" := by
  cases hk : kvGet s ("user_thread:" ++ user_id) with
  | none =>
    simp only [thread_id_of, hk] at h
    exact absurd h (by simp)
  | some u =>
    simp only [thread_id_of, hk] at h
    by_cases hc : u = "None" ∨ strTrim u = ""
    · rw [if_pos hc] at h; exact absurd h (by simp)
    · rw [if_neg hc] at h
      have hu : u = t := by simpa using h
      subst hu
      push_neg at hc
      exact ⟨rfl, hc.1, hc.2⟩

theorem createThread_not_mem_of_valid (env : BotEnv) (s : RedisState)
    (user_id text t : String)
    (hmode : safe_get_mode_st (some s) user_id ≠ REVISION_MODE)
    (hth : thread_id_of (some s) user_id = some t) :
    Act.createThread ∉ (process_ai_request env (some s) user_id text).2 := by
  rw [process_ai_request_eq _ _ _ _ hmode, assistant_flow_snd]
  by_cases hpoll : (pollRun env.runStatus).1 = "completed"
  · simp [threadActs, hth, hpoll]
  · simp [threadActs, hth, hpoll]

theorem process_fst_some (env : BotEnv) (s : RedisState) (user_id text : String)
    (hmode : safe_get_mode_st (some s) user_id ≠ REVISION_MODE) :
    ∃ s2, (process_ai_request env (some s) user_id text).1 = some s2 := by
  rw [process_ai_request_eq _ _ _ _ hmode, assistant_flow_fst]
  rcases threadStore_some env s user_id with ⟨s1, hs1⟩
  rw [hs1]
  by_cases hpoll : (pollRun env.runStatus).1 = "completed"
  · rw [if_pos hpoll]
    rcases log_question_some s1 user_id text env.now with ⟨sq, hsq⟩
    rw [hsq]
    exact ⟨kvSet (kvSet sq ("last_question:" ++ user_id) (strTake (strTrim text) 500))
      ("last_assistant_message:" ++ user_id)
      (strTake (strTrim (aiReplyText env (safe_get_mode_st (some s) user_id))) 2000),
      by simp [set_last_question, set_last_assistant_message]⟩
  · rw [if_neg hpoll]
    exact ⟨s1, rfl⟩

/-! ### Concrete environments used by the closed test instances -/

/-- A small classifier config: one off-topic keyword, one TCM keyword. -/
def demoCfg : SylConfig := ⟨["電影"], ["中醫"]⟩

/-- Base oracle: every external call returns a fixed innocuous value. -/
def baseEnv : BotEnv :=
  { cfg := demoCfg, now := 1000000, newThreadId := "th_new_1",
    runStatus := fun _ => "queued", assistantReply := "", chatReply := "",
    quizQuestion := "", reviewNote := "", transcript := "",
    speechCorrect := true, speechFeedback := "", speechCorrected := "",
    ttsResult := none }

/-- An assistant run that stays in_progress forever (high AI latency). -/
def demoEnvSlow : BotEnv := { baseEnv with runStatus := fun _ => "in_progress" }

/-- An assistant run that is completed at the first poll, with a reply
that carries trailing whitespace. -/
def demoEnvDone : BotEnv :=
  { baseEnv with runStatus := fun _ => "completed", assistantReply := "補氣血 " }

/-- C2: the run-polling loop of process_ai_request polls at 1-second
intervals (idealised clock), stopping at the first poll where the run has
left the queued/in_progress states or more than TIMEOUT_SECONDS = 28
seconds have elapsed (so after at most 29 sleeps); and whenever the final
status is not completed, the only message pushed by the assistant path is
the fixed TIMEOUT_MESSAGE. -/
theorem c2_poll_deadline_spec (env : BotEnv) (redis : Option RedisState)
    (user_id text : String) (status : Nat → String) :
    (pollRun status).1 = status (pollRun status).2 ∧
    (runActive (status (pollRun status).2) = false ∨
      TIMEOUT_SECONDS < (pollRun status).2) ∧
    (∀ i < (pollRun status).2, runActive (status i) = true ∧ i ≤ TIMEOUT_SECONDS) ∧
    (pollRun status).2 ≤ TIMEOUT_SECONDS + 1 ∧
    (safe_get_mode_st redis user_id ≠ REVISION_MODE →
      (pollRun env.runStatus).1 ≠ "completed" →
      pushedTexts (process_ai_request env redis user_id text).2 = [TIMEOUT_MESSAGE]) := by
  have h := pollRun_spec status
  refine ⟨h.1, h.2.1, h.2.2.1, h.2.2.2, ?_⟩
  intro hmode hpoll
  rw [process_ai_request_eq _ _ _ _ hmode, assistant_flow_snd, if_neg hpoll,
    pushedTexts_append, pushedTexts_append, pushedTexts_threadActs]
  simp [pushedTexts]

/-- C2 witness: with a run that never leaves in_progress, the user is
pushed exactly TIMEOUT_MESSAGE. -/
theorem c2_poll_deadline_witness :
    pushedTexts (process_ai_request demoEnvSlow none "U2" "hello").2 = [TIMEOUT_MESSAGE] :=
  (c2_poll_deadline_spec demoEnvSlow none "U2" "hello" demoEnvSlow.runStatus).2.2.2.2
    (by decide) (by decide)

/-- C3: on the assistant path, process_ai_request reuses the thread id
stored under user_thread when it is present, not the literal "None" and
non-blank after trimming (no threads.create call, key unchanged);
otherwise it creates a thread and stores the new id under the same key;
and, the fresh id being usable, any subsequent turn of the same user on
the resulting store reuses the stored thread.  In both cases the user's
mode is untouched. -/
theorem c3_thread_reuse_spec (env : BotEnv) (s : RedisState) (user_id text : String)
    (hmode : safe_get_mode_st (some s) user_id ≠ REVISION_MODE) :
    (∀ v, kvGet s ("user_thread:" ++ user_id) = some v → v ≠ "None" → strTrim v ≠ "" →
      Act.createThread ∉ (process_ai_request env (some s) user_id text).2 ∧
      ∃ s2, (process_ai_request env (some s) user_id text).1 = some s2 ∧
        kvGet s2 ("user_thread:" ++ user_id) = some v ∧
        safe_get_mode_st (some s2) user_id = safe_get_mode_st (some s) user_id) ∧
    ((kvGet s ("user_thread:" ++ user_id) = none ∨
      kvGet s ("user_thread:" ++ user_id) = some "None" ∨
      (∃ v, kvGet s ("user_thread:" ++ user_id) = some v ∧ strTrim v = "")) →
      Act.createThread ∈ (process_ai_request env (some s) user_id text).2 ∧
      ∃ s2, (process_ai_request env (some s) user_id text).1 = some s2 ∧
        kvGet s2 ("user_thread:" ++ user_id) = some env.newThreadId ∧
        safe_get_mode_st (some s2) user_id = safe_get_mode_st (some s) user_id) ∧
    (env.newThreadId ≠ "None" → strTrim env.newThreadId ≠ "" →
      ∀ s2, (process_ai_request env (some s) user_id text).1 = some s2 →
      ∀ (env2 : BotEnv) (text2 : String),
        Act.createThread ∉ (process_ai_request env2 (some s2) user_id text2).2) := by
  have hkeys := fun s2 h2 => process_store_keys env s user_id text
    ("user_thread:" ++ user_id) (thrKey_ne_lqKey _) (thrKey_ne_laKey _) hmode s2 h2
  have hmodekeys := fun s2 h2 => process_store_keys env s user_id text
    ("user_mode:" ++ user_id) (modeKey_ne_lqKey _) (modeKey_ne_laKey _) hmode s2 h2
  refine ⟨?_, ?_, ?_⟩
  · intro v hv hnone htrim
    have hth : thread_id_of (some s) user_id = some v := by
      simp [thread_id_of, hv, hnone, htrim]
    refine ⟨createThread_not_mem_of_valid env s user_id text v hmode hth, ?_⟩
    rcases process_fst_some env s user_id text hmode with ⟨s2, hs2⟩
    have hts : threadStore env (some s) user_id = some s := by
      simp [threadStore, hth]
    refine ⟨s2, hs2, ?_, ?_⟩
    · rcases hkeys s2 hs2 with ⟨s1, hs1, hkv⟩
      rw [hts] at hs1
      cases hs1
      rw [hkv, hv]
    · rcases hmodekeys s2 hs2 with ⟨s1, hs1, hkv⟩
      rw [hts] at hs1
      cases hs1
      exact safe_get_mode_st_eq_of_kv s2 s user_id hkv
  · intro hcase
    have hth : thread_id_of (some s) user_id = none := by
      rcases hcase with h | h | ⟨v, hv, htrim⟩
      · simp [thread_id_of, h]
      · simp [thread_id_of, h]
      · simp [thread_id_of, hv, htrim]
    constructor
    · rw [process_ai_request_eq _ _ _ _ hmode, assistant_flow_snd]
      by_cases hpoll : (pollRun env.runStatus).1 = "completed"
      · simp [threadActs, hth, hpoll]
      · simp [threadActs, hth, hpoll]
    · rcases process_fst_some env s user_id text hmode with ⟨s2, hs2⟩
      have hts : threadStore env (some s) user_id =
          some (kvSet s ("user_thread:" ++ user_id) env.newThreadId) := by
        simp [threadStore, hth]
      refine ⟨s2, hs2, ?_, ?_⟩
      · rcases hkeys s2 hs2 with ⟨s1, hs1, hkv⟩
        rw [hts] at hs1
        cases hs1
        rw [hkv, kvGet_kvSet_self]
      · rcases hmodekeys s2 hs2 with ⟨s1, hs1, hkv⟩
        rw [hts] at hs1
        cases hs1
        rw [kvGet_kvSet_ne _ _ _ _ (modeKey_ne_thrKey user_id)] at hkv
        exact safe_get_mode_st_eq_of_kv s2 s user_id hkv
  · intro hnn htrimn s2 hs2 env2 text2
    have hmode2 : safe_get_mode_st (some s2) user_id = safe_get_mode_st (some s) user_id := by
      rcases hmodekeys s2 hs2 with ⟨s1, hs1, hkv⟩
      cases hth : thread_id_of (some s) user_id with
      | some t =>
        have hts : threadStore env (some s) user_id = some s := by
          simp [threadStore, hth]
        rw [hts] at hs1
        cases hs1
        exact safe_get_mode_st_eq_of_kv s2 s user_id hkv
      | none =>
        have hts : threadStore env (some s) user_id =
            some (kvSet s ("user_thread:" ++ user_id) env.newThreadId) := by
          simp [threadStore, hth]
        rw [hts] at hs1
        cases hs1
        rw [kvGet_kvSet_ne _ _ _ _ (modeKey_ne_thrKey user_id)] at hkv
        exact safe_get_mode_st_eq_of_kv s2 s user_id hkv
    have hmode2' : safe_get_mode_st (some s2) user_id ≠ REVISION_MODE := by
      rw [hmode2]; exact hmode
    rcases hkeys s2 hs2 with ⟨s1, hs1, hkv⟩
    cases hth : thread_id_of (some s) user_id with
    | some t =>
      have hts : threadStore env (some s) user_id = some s := by
        simp [threadStore, hth]
      rw [hts] at hs1
      cases hs1
      rcases thread_id_of_some_inv s user_id t hth with ⟨hkt, htn, htt⟩
      have hth2 : thread_id_of (some s2) user_id = some t := by
        simp [thread_id_of, hkv.trans hkt, htn, htt]
      exact createThread_not_mem_of_valid env2 s2 user_id text2 t hmode2' hth2
    | none =>
      have hts : threadStore env (some s) user_id =
          some (kvSet s ("user_thread:" ++ user_id) env.newThreadId) := by
        simp [threadStore, hth]
      rw [hts] at hs1
      cases hs1
      rw [kvGet_kvSet_self] at hkv
      have hth2 : thread_id_of (some s2) user_id = some env.newThreadId := by
        simp [thread_id_of, hkv, hnn, htrimn]
      exact createThread_not_mem_of_valid env2 s2 user_id text2 env.newThreadId hmode2' hth2

/-- A store that already holds a usable thread id for user U4. -/
def storeWithThread : RedisState :=
  { emptyStore with kv := [("user_thread:U4", "th_old_7")] }

/-- C3 witness: with a stored thread id, no threads.create call is made. -/
theorem c3_thread_reuse_witness :
    Act.createThread ∉ (process_ai_request demoEnvDone (some storeWithThread) "U4" "hi").2 :=
  ((c3_thread_reuse_spec demoEnvDone storeWithThread "U4" "hi" (by decide)).1
    "th_old_7" (by decide) (by decide) (by decide)).1

/-- C9 (amended): when the user's mode is tcm and the run completes, the
single pushed message is the right-trimmed assistant reply with
SAFETY_DISCLAIMER appended, followed by the quiz offer — in particular it
contains reply-trimmed-plus-disclaimer as a substring; in every other
non-writing mode the pushed message is exactly the assistant reply, with
no disclaimer appended. -/
theorem c9_disclaimer_spec (env : BotEnv) (redis : Option RedisState)
    (user_id text : String) :
    (safe_get_mode_st redis user_id = "tcm" →
      (pollRun env.runStatus).1 = "completed" →
      pushedTexts (process_ai_request env redis user_id text).2 =
        [(strTrimR env.assistantReply ++ SAFETY_DISCLAIMER) ++ "\n\n是否要進行一題小測驗？"] ∧
      (strTrimR env.assistantReply ++ SAFETY_DISCLAIMER).data <:+:
        ((strTrimR env.assistantReply ++ SAFETY_DISCLAIMER) ++ "\n\n是否要進行一題小測驗？").data) ∧
    (safe_get_mode_st redis user_id ≠ "tcm" →
      safe_get_mode_st redis user_id ≠ REVISION_MODE →
      (pollRun env.runStatus).1 = "completed" →
      pushedTexts (process_ai_request env redis user_id text).2 = [env.assistantReply]) := by
  constructor
  · intro htcm hpoll
    have hmode : safe_get_mode_st redis user_id ≠ REVISION_MODE := by
      rw [htcm]; decide
    constructor
    · rw [process_ai_request_eq _ _ _ _ hmode, assistant_flow_snd, if_pos hpoll,
        pushedTexts_append, pushedTexts_append, pushedTexts_threadActs]
      simp [pushedTexts, aiPushBody, aiReplyText, htcm]
    · rw [String.data_append]
      simpa using List.infix_append []
        (strTrimR env.assistantReply ++ SAFETY_DISCLAIMER).data "\n\n是否要進行一題小測驗？".data
  · intro hntcm hmode hpoll
    rw [process_ai_request_eq _ _ _ _ hmode, assistant_flow_snd, if_pos hpoll,
      pushedTexts_append, pushedTexts_append, pushedTexts_threadActs]
    simp [pushedTexts, aiPushBody, aiReplyText, hntcm]

/-- C9 counterexample: for an assistant reply with trailing whitespace the
pushed message contains the right-trimmed reply plus disclaimer but does
not contain the (un-trimmed) assistant reply with the disclaimer appended,
contradicting the claim as stated. -/
theorem c9_counterexample_rstrip :
    pushedTexts (process_ai_request demoEnvDone (some emptyStore) "U3" "氣血不足").2 =
      ["補氣血" ++ SAFETY_DISCLAIMER ++ "\n\n是否要進行一題小測驗？"] ∧
    strContains ("補氣血" ++ SAFETY_DISCLAIMER ++ "\n\n是否要進行一題小測驗？")
      (demoEnvDone.assistantReply ++ SAFETY_DISCLAIMER) = false := by
  constructor
  · decide
  · decide

/-- C9 witness: the amended theorem at a concrete completed tcm run. -/
theorem c9_disclaimer_witness :
    pushedTexts (process_ai_request demoEnvDone (some emptyStore) "U5" "hello").2 =
      [(strTrimR demoEnvDone.assistantReply ++ SAFETY_DISCLAIMER) ++ "\n\n是否要進行一題小測驗？"] :=
  ((c9_disclaimer_spec demoEnvDone (some emptyStore) "U5" "hello").1
    (by decide) (by decide)).1

/-! ## api/index.py: endpoint authorization (C8) -/

/-- The acceptance the claim describes: the exact secret, raw or with the
"Bearer " prefix. -/
def matchesSecret (s expected : String) : Bool :=
  s = expected || s = "Bearer " ++ expected

/-- The guard of /api/cron/weekly (api/index.py lines 482-485): secret is
the Authorization header, else the secret query parameter, else ""; 401
exactly when CRON_SECRET is non-empty and the chosen value matches
neither accepted form.  An absent header is the empty string (Python or
treats None and "" alike). -/
def cron_auth_ok (authHeader querySecret expected : String) : Bool :=
  let secret := if authHeader ≠ "" then authHeader
    else if querySecret ≠ "" then querySecret else ""
  if expected ≠ "" ∧ secret ≠ expected ∧ secret ≠ "Bearer " ++ expected then false
  else true

/-- The guard of /api/process-voice-async (api/index.py lines 605-608):
same logic with the Authorization and X-Internal-Secret headers. -/
def voice_auth_ok (authHeader internalHeader expected : String) : Bool :=
  let secret := if authHeader ≠ "" then authHeader
    else if internalHeader ≠ "" then internalHeader else ""
  if expected ≠ "" ∧ secret ≠ expected ∧ secret ≠ "Bearer " ++ expected then false
  else true

theorem auth_chain_eq (a b : String) :
    (if a ≠ "" then a else if b ≠ "" then b else "") = if a ≠ "" then a else b := by
  by_cases ha : a ≠ ""
  · simp [ha]
  · by_cases hb : b ≠ ""
    · simp [ha, hb]
    · push_neg at hb
      simp [ha, hb]

/-- C8 counterexample: the secret is supplied via the secret query
parameter, exactly as stored, yet the cron endpoint rejects the request
because the non-empty (wrong) Authorization header shadows the query
parameter. -/
theorem c8_counterexample_header_shadow :
    matchesSecret "s3cr3t" "s3cr3t" = true ∧
    cron_auth_ok "wrong" "s3cr3t" "s3cr3t" = false := by
  constructor
  · decide
  · decide

/-- C8 (amended): with CRON_SECRET unset or empty both endpoints accept
every request; with a non-empty CRON_SECRET a request passes exactly when
the first non-empty value in the header chain (Authorization, then the
secret query parameter for the cron endpoint or X-Internal-Secret for the
voice endpoint) equals the secret raw or Bearer-prefixed — so a wrong
non-empty Authorization header causes 401 even when the second channel
carries the correct secret. -/
theorem c8_auth_spec (auth query internal expected : String) :
    (expected = "" → cron_auth_ok auth query expected = true ∧
      voice_auth_ok auth internal expected = true) ∧
    (expected ≠ "" →
      (cron_auth_ok auth query expected = true ↔
        matchesSecret (if auth ≠ "" then auth else query) expected = true) ∧
      (voice_auth_ok auth internal expected = true ↔
        matchesSecret (if auth ≠ "" then auth else internal) expected = true)) := by
  constructor
  · intro h
    subst h
    constructor
    · simp [cron_auth_ok]
    · simp [voice_auth_ok]
  · intro h
    constructor
    · simp only [cron_auth_ok, auth_chain_eq]
      by_cases h1 : (if auth ≠ "" then auth else query) = expected
      · simp [matchesSecret, h1, h]
      · by_cases h2 : (if auth ≠ "" then auth else query) = "Bearer " ++ expected
        · simp [matchesSecret, h1, h2, h]
        · simp [matchesSecret, h1, h2, h]
    · simp only [voice_auth_ok, auth_chain_eq]
      by_cases h1 : (if auth ≠ "" then auth else internal) = expected
      · simp [matchesSecret, h1, h]
      · by_cases h2 : (if auth ≠ "" then auth else internal) = "Bearer " ++ expected
        · simp [matchesSecret, h1, h2, h]
        · simp [matchesSecret, h1, h2, h]

/-- C8 witness: a Bearer-prefixed Authorization header is accepted by the
cron endpoint when CRON_SECRET is set. -/
theorem c8_auth_witness :
    cron_auth_ok "Bearer tok9" "" "tok9" = true :=
  ((c8_auth_spec "Bearer tok9" "" "" "tok9").2 (by decide)).1.mpr (by decide)

/-! ## api/index.py: webhook handlers and the voice pipeline -/

/-- Python startswith on strings. -/
def strStartsWith (s p : String) : Bool := decide (p.data <+: s.data)

/-- Python str.rstrip("/"). -/
def rstripSlashes (s : String) : String :=
  ⟨(s.data.reverse.dropWhile (fun c => c == '/')).reverse⟩

/-- The base-url normalisation of handle_audio (api/index.py lines
872-873): trim VERCEL_URL, drop trailing slashes, and prefix https:// when
the value does not start with http. -/
def normalizeVercelBase (vercel_url : String) : String :=
  let v := rstripSlashes (strTrim vercel_url)
  if v ≠ "" ∧ strStartsWith v "http" = false then "https://" ++ v else v

/-- send_course_inquiry_flex (api/index.py lines 248-259), abstracted to a
single effect: it builds the Flex bubble (possibly issuing a highlights
chat completion) and replies or pushes it; it never touches the assistant
run loop. -/
def send_course_inquiry_acts (isReply : Bool) : List Act := [Act.courseFlex isReply]

/-- handle_audio (api/index.py lines 862-899): reply the acknowledgment,
then — when a base url and CRON_SECRET are configured — fire the POST to
/api/process-voice-async with a 0.8 s timeout, spawning the fallback
daemon thread only when the POST raises something other than a
read/connect timeout; without configuration, spawn the daemon thread. -/
def handle_audio (vercel_url cron_secret : String) (outcome : PostOutcome) : List Act :=
  let ack := Act.reply "🎙️ 正在轉換語音..."
  let base_url := normalizeVercelBase vercel_url
  if base_url ≠ "" ∧ cron_secret ≠ "" then
    match outcome with
    | PostOutcome.otherError =>
      [ack, Act.postVoiceAsync 800 outcome, Act.spawnBackgroundThread]
    | _ => [ack, Act.postVoiceAsync 800 outcome]
  else [ack, Act.spawnBackgroundThread]

/-- _evaluate_speech (api/index.py lines 143-186): no call for a blank
transcript (status Correct), otherwise one chat completion whose parsed
(status, feedback, corrected) triple the oracle provides. -/
def evaluate_speech (env : BotEnv) (transcript : String) :
    List Act × (Bool × String × String) :=
  if strTrim transcript = "" then ([], (true, "", ""))
  else ([Act.chatCompletion], (env.speechCorrect, env.speechFeedback, env.speechCorrected))

/-- _generate_tts_and_store (api/index.py lines 209-245): nothing for a
blank sentence; otherwise a TTS synthesis and an upload, returning the
oracle's (url, duration) on success. -/
def generate_tts_and_store (env : BotEnv) (sentence : String) :
    List Act × Option (String × Nat) :=
  if strTrim sentence = "" then ([], none)
  else ([Act.ttsSynthesize, Act.uploadCloudinary], env.ttsResult)

/-- _process_voice_sync (api/index.py lines 526-599): download, transcribe,
push the recognition, then branch on the user's mode (writing revision,
speaking coach with optional TTS demo, or the default course/off-topic/AI
routing). -/
def process_voice_sync (env : BotEnv) (redis : Option RedisState)
    (user_id message_id : String) : Option RedisState × List Act :=
  let tText := strTrim env.transcript
  let pre := [Act.downloadAudio message_id, Act.transcribeAudio,
    Act.pushText ("🎤 辨識內容：「" ++ tText ++ "」")]
  let mode := safe_get_mode_st redis user_id
  if mode = REVISION_MODE then
    let r := revision_handler env redis user_id tText
    (r.1, pre ++ r.2)
  else if mode = "speaking" then
    let ev := evaluate_speech env tText
    if ev.2.1 then
      (redis, pre ++ ev.1 ++
        [Act.pushText "發音非常標準！太棒了！\n\n要再練習下一句嗎？"])
    else
      let corrected := ev.2.2.2
      let text_for_tts := if corrected ≠ "" then strTrim corrected else tText
      let fb := Act.pushText
        ("📊 口說練習回饋\n\n" ++ ev.2.2.1 ++ "\n\n🔊 請跟著唸：「" ++ text_for_tts ++ "」")
      let tts := generate_tts_and_store env text_for_tts
      match tts.2 with
      | some (url, dur) =>
        if url ≠ "" ∧ dur ≠ 0 then
          (redis, pre ++ ev.1 ++ [fb] ++ tts.1 ++
            [Act.pushAudio url dur, Act.pushText "示範語音已送上，要再練習下一句嗎？"])
        else
          (redis, pre ++ ev.1 ++ [fb] ++ tts.1 ++
            [Act.pushText ("修正文本：" ++ text_for_tts ++ "\n\n要再練習下一句嗎？")])
      | none =>
        (redis, pre ++ ev.1 ++ [fb] ++ tts.1 ++
          [Act.pushText ("修正文本：" ++ text_for_tts ++ "\n\n要再練習下一句嗎？")])
  else
    if is_course_inquiry_intent tText then
      (redis, pre ++ [Act.pushText "正在查詢課務資料...", Act.courseFlex false])
    else if is_off_topic env.cfg tText then
      (redis, pre ++ [Act.pushText OFF_TOPIC_REPLY])
    else
      let r := process_ai_request env redis user_id tText
      (r.1, pre ++ r.2)

/-- _run_voice_background (api/index.py lines 504-523), the daemon-thread
target: with configuration it re-POSTs with a 30 s timeout and only runs
the pipeline synchronously when that raises; without configuration it runs
the pipeline synchronously. -/
def run_voice_background (env : BotEnv) (redis : Option RedisState)
    (user_id message_id base_url cron_secret : String) (outcome : PostOutcome) :
    Option RedisState × List Act :=
  if base_url ≠ "" ∧ cron_secret ≠ "" then
    match outcome with
    | PostOutcome.delivered => (redis, [Act.postVoiceAsync 30000 outcome])
    | _ =>
      let r := process_voice_sync env redis user_id message_id
      (r.1, Act.postVoiceAsync 30000 outcome :: r.2)
  else process_voice_sync env redis user_id message_id

/-- No action of the trace belongs to the voice pipeline proper
(download, transcription, TTS synthesis, upload). -/
def voicePipelineFree (l : List Act) : Bool :=
  l.all (fun a => match a with
    | Act.downloadAudio _ => false
    | Act.transcribeAudio => false
    | Act.ttsSynthesize => false
    | Act.uploadCloudinary => false
    | _ => true)

/-- The claim's notion of the background processing being triggered: a
POST that reached the server (response received or read-timeout after
sending) or a spawned daemon thread. -/
def voiceDispatched (l : List Act) : Bool :=
  l.any (fun a => match a with
    | Act.postVoiceAsync _ PostOutcome.delivered => true
    | Act.postVoiceAsync _ PostOutcome.readTimeout => true
    | Act.spawnBackgroundThread => true
    | _ => false)

/-- The mode labels of handle_postback (api/index.py line 669),
dict lookup with the mode itself as default. -/
def mode_label (mode : String) : String :=
  if mode = "tcm" then "🩺 中醫問答"
  else if mode = "speaking" then "🗣️ 口說練習"
  else if mode = "writing" then "✍️ 寫作修訂"
  else mode

/-- handle_postback (api/index.py lines 659-697): course/weekly postbacks
reply the course Flex; otherwise the mode after "=" (default tcm) is
stored under user_mode and a switch message is replied. -/
def handle_postback (env : BotEnv) (redis : Option RedisState)
    (user_id data_raw : String) : Option RedisState × List Act :=
  let data := strTrim data_raw
  if data = "action=course" ∨ data = "action=weekly" then
    (redis, send_course_inquiry_acts true)
  else
    let mode := if strContains data "=" then strTrim ((data.splitOn "=").getD 1 "")
      else "tcm"
    let redis1 := redis.map (fun s => kvSet s ("user_mode:" ++ user_id) mode)
    if mode = REVISION_MODE then
      (redis1, [Act.reply "已切換至【✍️ 寫作修訂】模式，請貼上要修改的段落。"])
    else if mode = "speaking" then
      (redis1, [Act.reply "已切換至【🗣️ 口說練習】模式，可傳送語音或文字。"])
    else
      (redis1, [Act.reply ("已切換至【" ++ mode_label mode ++ "】模式")])

/-- The quiz Flex alt text of build_quiz_flex_message
(api/index.py lines 314-316). -/
def build_quiz_alt (question : String) : String :=
  let alt := "小測驗：" ++ strTake question 80
  if 80 < question.length then alt ++ "..." else alt

/-- The mode display names of handle_message (api/index.py line 846),
dict lookup defaulting to the tcm label. -/
def mode_name_of (mode : String) : String :=
  if mode = "tcm" then "🩺 中醫問答"
  else if mode = "speaking" then "🗣️ 口說練習"
  else if mode = "writing" then "✍️ 寫作修訂"
  else "🩺 中醫問答"

/-- handle_message from the "結束練習" check on (api/index.py lines
828-850): end-practice, off-topic filter, and the default branch that
replies the analysing message and then runs process_ai_request
synchronously. -/
def handle_message_rest2 (env : BotEnv) (redis : Option RedisState)
    (user_id user_text : String) : Option RedisState × List Act :=
  if user_text = "結束練習" then
    (redis.map (fun s => kvSet s ("user_mode:" ++ user_id) "tcm"),
     [Act.reply "已結束口說練習，已切換回中醫問答模式。"])
  else if is_off_topic env.cfg user_text then
    (redis, [Act.reply OFF_TOPIC_REPLY])
  else
    let mode := safe_get_mode_st redis user_id
    let r := process_ai_request env redis user_id user_text
    (r.1, Act.reply ("正在以【" ++ mode_name_of mode ++ "】模式分析中...") :: r.2)

/-- handle_message from the "否" check to the "練習下一句" check
(api/index.py lines 780-827); "練習下一句" falls through to the rest when
the user is not in speaking mode, as in the source. -/
def handle_message_rest1 (env : BotEnv) (redis : Option RedisState)
    (user_id user_text : String) : Option RedisState × List Act :=
  if user_text = "否" then
    (redis, [Act.reply "沒問題！如果有其他想了解的，歡迎隨時提問。"])
  else if user_text = "是" then
    (redis, [Act.chatCompletion, Act.replyFlex (build_quiz_alt env.quizQuestion)])
  else if user_text = "本週重點" then
    (redis, send_course_inquiry_acts true)
  else if user_text = "口說練習" then
    (redis.map (fun s => kvSet s ("user_mode:" ++ user_id) "speaking"),
     [Act.reply "已切換至【🗣️ 口說練習】模式，可傳送語音或文字。"])
  else if user_text = "寫作修改" then
    (redis.map (fun s => kvSet s ("user_mode:" ++ user_id) REVISION_MODE),
     [Act.reply "已切換至【✍️ 寫作修訂】模式，請貼上要修改的段落。"])
  else if user_text = "練習下一句" then
    if safe_get_mode_st redis user_id = "speaking" then
      (redis, [Act.reply "請傳送語音訊息開始練習～我會幫你分析發音與文法。\n\n要再練習下一句嗎？"])
    else handle_message_rest2 env redis user_id user_text
  else handle_message_rest2 env redis user_id user_text

/-- handle_message (api/index.py lines 699-860): writing-mode isolation,
course inquiry, the stale quiz state, review-note answers, the proactive
review ask with its 7-day cooldown, then the remaining text commands. -/
def handle_message (env : BotEnv) (redis : Option RedisState)
    (user_id raw_text : String) : Option RedisState × List Act :=
  let user_text := strTrim raw_text
  let current_mode := safe_get_mode_st redis user_id
  if current_mode = REVISION_MODE then
    if user_text = "寫作修改" then
      (redis, [Act.reply "你已在【✍️ 寫作修訂】模式～請貼上要修改的段落。"])
    else if user_text = "離開模式" then
      (redis.map (fun s => kvSet s ("user_mode:" ++ user_id) "tcm"),
       [Act.reply "已離開寫作修訂模式，已切換回中醫問答模式。"])
    else if user_text = "繼續練習" then
      (redis, [Act.reply "請貼上要修改的段落。"])
    else
      let r := revision_handler env redis user_id user_text
      (r.1, Act.reply "正在分析你的寫作..." :: r.2)
  else if is_course_inquiry_intent user_text then
    (redis, send_course_inquiry_acts true)
  else if get_user_state redis user_id = STATE_QUIZ_WAITING then
    let r1 := set_user_state redis user_id STATE_NORMAL
    let r2 := clear_quiz_data r1 user_id
    let r3 := clear_quiz_pending r2 user_id
    let r := process_ai_request env r3 user_id user_text
    (r.1, Act.reply "正在分析中..." :: r.2)
  else if user_text = "要複習筆記" then
    let cat := get_pending_review_category redis user_id
    let r1 := clear_pending_review_category redis user_id
    match cat with
    | some c =>
      if c ≠ "" then
        (clear_weak_category r1 user_id c,
         [Act.chatCompletion, Act.reply ("📝 【" ++ c ++ "】複習筆記\n\n" ++ env.reviewNote)])
      else (r1, [Act.reply "好的，有需要再跟我說～"])
    | none => (r1, [Act.reply "好的，有需要再跟我說～"])
  else if user_text = "不要複習筆記" then
    (clear_pending_review_category redis user_id, [Act.reply "好的，有需要再跟我說～"])
  else
    let weak := get_weak_categories redis user_id 2
    if weak ≠ [] ∧ 7 * 24 * 3600 < env.now - get_last_review_ask redis user_id then
      match weak.head? with
      | some p =>
        if p.1 ≠ "" then
          let r1 := set_last_review_ask redis user_id env.now
          (set_pending_review_category r1 user_id p.1,
           [Act.reply ("發現你對「" ++ p.1 ++ "」這部分較不熟，需要幫你整理複習筆記嗎？")])
        else handle_message_rest1 env redis user_id user_text
      | none => handle_message_rest1 env redis user_id user_text
    else handle_message_rest1 env redis user_id user_text

/-- C4 counterexample: with base url and secret configured and the POST
raising a connect timeout (the POST never reached the server), handle_audio
neither spawns the fallback daemon thread nor has a POST that reached the
server: nothing triggers the background processing, contradicting the
claim's "daemon thread ... when the POST fails to connect". -/
theorem c4_counterexample_connect_timeout :
    handle_audio "myapp.vercel.app" "sec" PostOutcome.connectTimeout =
      [Act.reply "🎙️ 正在轉換語音...",
       Act.postVoiceAsync 800 PostOutcome.connectTimeout] ∧
    Act.spawnBackgroundThread ∉
      handle_audio "myapp.vercel.app" "sec" PostOutcome.connectTimeout ∧
    voiceDispatched (handle_audio "myapp.vercel.app" "sec" PostOutcome.connectTimeout)
      = false := by
  refine ⟨by decide, by decide, by decide⟩

/-- C4 (amended): handle_audio always replies the acknowledgment first and
never executes the voice pipeline itself; with a base url and secret
configured it fires the POST with a 0.8 s timeout and spawns the fallback
daemon thread only when the POST raises a non-timeout error (on a read or
connect timeout nothing further is done); otherwise it spawns the daemon
thread. -/
theorem c4_handle_audio_spec (vercel_url cron_secret : String) (outcome : PostOutcome) :
    (handle_audio vercel_url cron_secret outcome).head? =
      some (Act.reply "🎙️ 正在轉換語音...") ∧
    voicePipelineFree (handle_audio vercel_url cron_secret outcome) = true ∧
    (normalizeVercelBase vercel_url ≠ "" ∧ cron_secret ≠ "" →
      handle_audio vercel_url cron_secret outcome =
        [Act.reply "🎙️ 正在轉換語音...", Act.postVoiceAsync 800 outcome] ++
          (if outcome = PostOutcome.otherError then [Act.spawnBackgroundThread] else [])) ∧
    (¬(normalizeVercelBase vercel_url ≠ "" ∧ cron_secret ≠ "") →
      handle_audio vercel_url cron_secret outcome =
        [Act.reply "🎙️ 正在轉換語音...", Act.spawnBackgroundThread]) := by
  by_cases hcfg : normalizeVercelBase vercel_url ≠ "" ∧ cron_secret ≠ ""
  · cases outcome <;> simp [handle_audio, voicePipelineFree, hcfg]
  · cases outcome <;> simp [handle_audio, voicePipelineFree, hcfg]

/-- C4 witness: the amended dispatch shape at a configured deployment with
a delivered POST. -/
theorem c4_handle_audio_witness :
    handle_audio "myapp.vercel.app" "sec" PostOutcome.delivered =
      [Act.reply "🎙️ 正在轉換語音...", Act.postVoiceAsync 800 PostOutcome.delivered] ++
        (if PostOutcome.delivered = PostOutcome.otherError then [Act.spawnBackgroundThread]
         else []) :=
  (c4_handle_audio_spec "myapp.vercel.app" "sec" PostOutcome.delivered).2.2.1 (by decide)

/-! ### C1: what the handlers do before returning -/

theorem pollWaitSeconds_cons (a : Act) (l : List Act) :
    pollWaitSeconds (a :: l) = pollOf a + pollWaitSeconds l := by
  simp [pollWaitSeconds]

theorem revision_poll_zero (env : BotEnv) (redis : Option RedisState)
    (user_id text : String) :
    pollWaitSeconds (revision_handler env redis user_id text).2 = 0 := by
  unfold revision_handler
  split
  · simp [pollWaitSeconds, pollOf]
  · simp [pollWaitSeconds, pollOf]

theorem process_poll_le (env : BotEnv) (redis : Option RedisState)
    (user_id text : String) :
    pollWaitSeconds (process_ai_request env redis user_id text).2 ≤ TIMEOUT_SECONDS + 1 := by
  have hp : (pollRun env.runStatus).2 ≤ TIMEOUT_SECONDS + 1 := (pollRun_spec env.runStatus).2.2.2
  by_cases hmode : safe_get_mode_st redis user_id = REVISION_MODE
  · rw [process_ai_request_eq_revision _ _ _ _ hmode, revision_poll_zero]
    simp
  · rw [process_ai_request_eq _ _ _ _ hmode, assistant_flow_snd]
    by_cases hpoll : (pollRun env.runStatus).1 = "completed"
    all_goals cases hth : thread_id_of redis user_id
    all_goals simp [threadActs, hth, hpoll, pollWaitSeconds, pollOf]
    all_goals omega

theorem handle_postback_poll_zero (env : BotEnv) (redis : Option RedisState)
    (user_id data : String) :
    pollWaitSeconds (handle_postback env redis user_id data).2 = 0 := by
  simp only [handle_postback]
  repeat' split
  all_goals simp [send_course_inquiry_acts, pollWaitSeconds, pollOf]

theorem handle_audio_poll_zero (vercel_url cron_secret : String) (outcome : PostOutcome) :
    pollWaitSeconds (handle_audio vercel_url cron_secret outcome) = 0 := by
  by_cases hcfg : normalizeVercelBase vercel_url ≠ "" ∧ cron_secret ≠ ""
  · cases outcome <;> simp [handle_audio, hcfg, pollWaitSeconds, pollOf]
  · cases outcome <;> simp [handle_audio, hcfg, pollWaitSeconds, pollOf]

theorem handle_message_rest2_spec (env : BotEnv) (redis : Option RedisState)
    (user_id user_text : String) :
    acksBeforePolling (handle_message_rest2 env redis user_id user_text).2 = true ∧
    pollWaitSeconds (handle_message_rest2 env redis user_id user_text).2 ≤
      TIMEOUT_SECONDS + 1 := by
  simp only [handle_message_rest2]
  split
  · constructor
    · simp [acksBeforePolling]
    · simp [pollWaitSeconds, pollOf]
  · split
    · constructor
      · simp [acksBeforePolling]
      · simp [pollWaitSeconds, pollOf]
    · constructor
      · simp [acksBeforePolling]
      · rw [pollWaitSeconds_cons]
        have h := process_poll_le env redis user_id user_text
        simp [pollOf]
        omega

theorem handle_message_rest1_spec (env : BotEnv) (redis : Option RedisState)
    (user_id user_text : String) :
    acksBeforePolling (handle_message_rest1 env redis user_id user_text).2 = true ∧
    pollWaitSeconds (handle_message_rest1 env redis user_id user_text).2 ≤
      TIMEOUT_SECONDS + 1 := by
  simp only [handle_message_rest1]
  split
  · constructor
    · simp [acksBeforePolling]
    · simp [pollWaitSeconds, pollOf]
  · split
    · constructor
      · simp [acksBeforePolling]
      · simp [pollWaitSeconds, pollOf]
    · split
      · constructor
        · simp [send_course_inquiry_acts, acksBeforePolling]
        · simp [send_course_inquiry_acts, pollWaitSeconds, pollOf]
      · split
        · constructor
          · simp [acksBeforePolling]
          · simp [pollWaitSeconds, pollOf]
        · split
          · constructor
            · simp [acksBeforePolling]
            · simp [pollWaitSeconds, pollOf]
          · split
            · split
              · constructor
                · simp [acksBeforePolling]
                · simp [pollWaitSeconds, pollOf]
              · exact handle_message_rest2_spec env redis user_id user_text
            · exact handle_message_rest2_spec env redis user_id user_text

theorem handle_message_ack_spec (env : BotEnv) (redis : Option RedisState)
    (user_id raw_text : String) :
    acksBeforePolling (handle_message env redis user_id raw_text).2 = true ∧
    pollWaitSeconds (handle_message env redis user_id raw_text).2 ≤
      TIMEOUT_SECONDS + 1 := by
  simp only [handle_message]
  split
  · split
    · constructor
      · simp [acksBeforePolling]
      · simp [pollWaitSeconds, pollOf]
    · split
      · constructor
        · simp [acksBeforePolling]
        · simp [pollWaitSeconds, pollOf]
      · split
        · constructor
          · simp [acksBeforePolling]
          · simp [pollWaitSeconds, pollOf]
        · constructor
          · simp [acksBeforePolling]
          · rw [pollWaitSeconds_cons, revision_poll_zero]
            simp [pollOf]
  · split
    · constructor
      · simp [send_course_inquiry_acts, acksBeforePolling]
      · simp [send_course_inquiry_acts, pollWaitSeconds, pollOf]
    · split
      · constructor
        · simp [acksBeforePolling]
        · rw [pollWaitSeconds_cons]
          have h := process_poll_le env
            (clear_quiz_pending (clear_quiz_data
              (set_user_state redis user_id STATE_NORMAL) user_id) user_id)
            user_id (strTrim raw_text)
          simp [pollOf]
          omega
      · split
        · split
          · split
            · constructor
              · simp [acksBeforePolling]
              · simp [pollWaitSeconds, pollOf]
            · constructor
              · simp [acksBeforePolling]
              · simp [pollWaitSeconds, pollOf]
          · constructor
            · simp [acksBeforePolling]
            · simp [pollWaitSeconds, pollOf]
        · split
          · constructor
            · simp [acksBeforePolling]
            · simp [pollWaitSeconds, pollOf]
          · split
            · split
              · split
                · constructor
                  · simp [acksBeforePolling]
                  · simp [pollWaitSeconds, pollOf]
                · exact handle_message_rest1_spec env redis user_id (strTrim raw_text)
              · exact handle_message_rest1_spec env redis user_id (strTrim raw_text)
            · exact handle_message_rest1_spec env redis user_id (strTrim raw_text)

/-- C1 counterexample: on an ordinary subject question with a slow
assistant run, the text-message webhook handler runs the AI polling loop
synchronously before returning, waiting TIMEOUT_SECONDS + 1 = 29 seconds
inside the polling loop — it does block on the loop, contradicting the
claim. -/
theorem c1_counterexample_sync_polling :
    0 < pollWaitSeconds (handle_message demoEnvSlow (some emptyStore) "U1" "什麼是氣血").2 ∧
    pollWaitSeconds (handle_message demoEnvSlow (some emptyStore) "U1" "什麼是氣血").2 =
      TIMEOUT_SECONDS + 1 := by
  refine ⟨by decide, by decide⟩

/-- C1 (amended): the postback and audio handlers never run the AI polling
loop before returning; the text-message handler always sends an
acknowledgment reply before any polling, but then runs process_ai_request
synchronously, so it can spend up to TIMEOUT_SECONDS + 1 seconds in the
polling loop before returning. -/
theorem c1_handlers_spec (env : BotEnv) (redis : Option RedisState)
    (user_id data raw_text vercel_url cron_secret : String) (outcome : PostOutcome) :
    pollWaitSeconds (handle_postback env redis user_id data).2 = 0 ∧
    pollWaitSeconds (handle_audio vercel_url cron_secret outcome) = 0 ∧
    acksBeforePolling (handle_message env redis user_id raw_text).2 = true ∧
    pollWaitSeconds (handle_message env redis user_id raw_text).2 ≤
      TIMEOUT_SECONDS + 1 :=
  ⟨handle_postback_poll_zero env redis user_id data,
   handle_audio_poll_zero vercel_url cron_secret outcome,
   (handle_message_ack_spec env redis user_id raw_text).1,
   (handle_message_ack_spec env redis user_id raw_text).2⟩
